import Mathlib

set_option linter.unusedVariables false

/-!
Shallow embedding of the attribute-reference template engine of
`src/main/tmpl.c` (FreeRADIUS server, VALUE_PAIR template functions).

Strings are modelled as `List Char`; the C parser's moving pointer `p` is
modelled as the remaining suffix of the input, so the C expression
`p - name` becomes `name.length - p.length`.  Machine integers that can
only hold small values (tags, instance indices, byte offsets) are
modelled as `Int`/`Nat`.  Library functions that live outside this
repository (libc `strtol`, the dictionary lookups, the `FR_NAME_NUMBER`
table helpers, the pair cursor primitive) are modelled from the spec and
marked as such in their doc comments.
-/

/-! ### Decimal digit helpers -/

/-- The character for a single decimal digit value. -/
def digitChar (n : Nat) : Char := Char.ofNat (48 + n)

/-- Decimal digits of a natural number, most significant first.
Fuel-based structural recursion so that the kernel can evaluate it. -/
def natToDigitsAux : Nat → Nat → List Char → List Char
  | 0, _, acc => acc
  | fuel + 1, n, acc =>
    if n < 10 then digitChar n :: acc
    else natToDigitsAux fuel (n / 10) (digitChar (n % 10) :: acc)

/-- Canonical decimal representation of a natural number. -/
def natToDigits (n : Nat) : List Char := natToDigitsAux (n + 1) n []

/-- Value of a run of decimal digit characters (the accumulator form that
`strtol` uses). -/
def digitsVal (ds : List Char) : Nat := ds.foldl (fun a c => a * 10 + (c.toNat - 48)) 0

/-! ### Character list helpers (modelling `strchr` splits and pointer scans) -/

/-- Split a character list at the first occurrence of `c` (modelling
`strchr`): returns the part strictly before and strictly after it. -/
def splitAtChar (c : Char) : List Char → Option (List Char × List Char)
  | [] => none
  | x :: xs =>
    if x = c then some ([], xs)
    else
      match splitAtChar c xs with
      | some (pre, post) => some (x :: pre, post)
      | none => none

/-! ### Enumerations and name/number tables (tmpl.c lines 34-57) -/

/-- `pair_lists_t`: the nine named collections plus the unknown sentinel. -/
inductive pair_lists_t where
  | unknown
  | request
  | reply
  | control
  | proxy_request
  | proxy_reply
  | coa
  | coa_reply
  | dm
  | dm_reply
deriving DecidableEq, Repr

/-- `request_refs_t`: request scope selectors plus the unknown sentinel. -/
inductive request_refs_t where
  | unknown
  | outer
  | current
  | parent
deriving DecidableEq, Repr

/-- The `pair_lists` name table, in source order (WITH_PROXY and WITH_COA
compiled in, as the spec's nine-list selector requires).  "config" is the
deprecated alias of "control"; "control" comes first so that it has
priority when printing. -/
def pair_lists : List (List Char × pair_lists_t) :=
  [("request".toList, .request),
   ("reply".toList, .reply),
   ("control".toList, .control),
   ("config".toList, .control),
   ("proxy-request".toList, .proxy_request),
   ("proxy-reply".toList, .proxy_reply),
   ("coa".toList, .coa),
   ("coa-reply".toList, .coa_reply),
   ("disconnect".toList, .dm),
   ("disconnect-reply".toList, .dm_reply)]

/-- The `request_refs` name table, in source order. -/
def request_refs : List (List Char × request_refs_t) :=
  [("outer".toList, .outer),
   ("current".toList, .current),
   ("parent".toList, .parent)]

/-- ASCII lower-casing of one character (the case folding `strncasecmp`
performs). -/
def lowerChar (c : Char) : Char :=
  if 'A' ≤ c && c ≤ 'Z' then Char.ofNat (c.toNat + 32) else c

/-- Modelled from the spec: `fr_substr2int` (library helper outside this
repository).  Matches the given character span, case-insensitively,
against the full name of each table entry in order; returns the first
match's number or the default. -/
def fr_substr2int {α : Type} (table : List (List Char × α)) (dflt : α) (s : List Char) : α :=
  match table.find? (fun e => s.map lowerChar == e.1) with
  | some e => e.2
  | none => dflt

/-- Modelled from the spec: `fr_int2str` (library helper outside this
repository).  Returns the first table entry with the given number; the
callers in `tmpl_prints` pass the empty string as default. -/
def fr_int2str {α : Type} [DecidableEq α] (table : List (List Char × α)) (v : α) : List Char :=
  match table.find? (fun e => e.2 == v) with
  | some e => e.1
  | none => []

/-! ### radius_request_name (tmpl.c lines 317-345) -/

/-- `radius_request_name`: consume an optional `<request-ref>.` prefix.
Looks for the first `'.'`; if the text before it is a known request
reference the qualifier is consumed, otherwise the caller's default is
returned and nothing is consumed (`"127.0.0.1"` must stay intact). -/
def radius_request_name (p : List Char) (dflt : request_refs_t) :
    request_refs_t × List Char :=
  match splitAtChar '.' p with
  | none => (dflt, p)
  | some (pre, post) =>
    let r := fr_substr2int request_refs request_refs_t.unknown pre
    if r ≠ request_refs_t.unknown then (r, post) else (dflt, p)

/-! ### radius_list_name (tmpl.c lines 78-161) -/

/-- The tag lookahead of `radius_list_name` (tmpl.c lines 109-124): after
a colon, a run of decimal digits ending at end-of-input or at `'['` is a
tag, so the colon is not a list separator. -/
def tagLookahead (post : List Char) : Bool :=
  match post with
  | [] => false
  | c :: _ =>
    c.isDigit &&
      (match post.dropWhile Char.isDigit with
       | [] => true
       | d :: _ => d = '[')

/-- `radius_list_name`: consume an optional `<list-name>:` qualifier.
The digit lookahead runs before any list-name match is attempted; with a
colon present, unmatched text before it is `unknown` (an error for the
caller), not a silent fallback. -/
def radius_list_name (p : List Char) (default_list : pair_lists_t) :
    pair_lists_t × List Char :=
  match splitAtChar ':' p with
  | some (pre, post) =>
    if tagLookahead post then (default_list, p)
    else
      let output := fr_substr2int pair_lists pair_lists_t.unknown pre
      if output ≠ pair_lists_t.unknown then (output, post)
      else (pair_lists_t.unknown, p)
  | none =>
    let output := fr_substr2int pair_lists pair_lists_t.unknown p
    if output ≠ pair_lists_t.unknown then (output, [])
    else (default_list, p)

/-! ### The attribute catalogue (external collaborator) -/

/-- A catalogue descriptor (`DICT_ATTR`): name, number (standing in for
pointer identity), tag capability, unknown flag and type code. -/
structure DictAttr where
  name : List Char
  attrId : Nat
  has_tag : Bool
  is_unknown : Bool
  ptype : Nat
deriving DecidableEq, Repr

/-- Modelled from the spec: the set of catalogue-admissible characters
(`dict_attr_allowed_chars`, defined outside this repository): letters,
digits, `-`, `_`, `.` and `/`. -/
def dict_attr_allowed_chars (c : Char) : Bool :=
  c.isAlpha || c.isDigit || c = '-' || c = '_' || c = '.' || c = '/'

/-- Catalogue lookup by exact name (the catalogue is passed explicitly as
a list of descriptors; the empty name never matches). -/
def dictLookup (dict : List DictAttr) (s : List Char) : Option DictAttr :=
  if s = [] then none else dict.find? (fun d => d.name == s)

/-- Modelled from the spec: `dict_attrbyname_substr` (outside this
repository) — catalogue lookup by the longest prefix of
catalogue-admissible characters; on a hit the name is consumed. -/
def dict_attrbyname_substr (dict : List DictAttr) (p : List Char) :
    Option (DictAttr × List Char) :=
  match dictLookup dict (p.takeWhile dict_attr_allowed_chars) with
  | some da => some (da, p.dropWhile dict_attr_allowed_chars)
  | none => none

lemma length_dropWhile_le (p : Char → Bool) : ∀ l : List Char,
    (l.dropWhile p).length ≤ l.length := by
  intro l
  induction l with
  | nil => simp
  | cons x xs ih =>
    by_cases hx : p x
    · rw [List.dropWhile_cons_of_pos hx]
      exact Nat.le_trans ih (Nat.le_succ _)
    · rw [List.dropWhile_cons_of_neg hx]

/-- Remaining input after the dotted tail of an `Attr-1.2.3.4` style
reference: consumes each `.`-prefixed digit run. -/
def oidGroups (p : List Char) : List Char :=
  match p with
  | '.' :: rest =>
    if h : rest.takeWhile Char.isDigit = [] then '.' :: rest
    else oidGroups (rest.dropWhile Char.isDigit)
  | other => other
termination_by p.length
decreasing_by
  simp only [List.length_cons]
  have := length_dropWhile_le Char.isDigit rest
  omega

/-- Modelled from the spec: `dict_unknown_from_substr` (outside this
repository) — parse the numeric "unknown attribute" encoding
`Attr-<digits>(.<digits>)*`, yielding a locally owned placeholder
descriptor and the remaining input. -/
def dict_unknown_from_substr (p : List Char) : Option (DictAttr × List Char) :=
  match p with
  | 'A' :: 't' :: 't' :: 'r' :: '-' :: rest =>
    let ds := rest.takeWhile Char.isDigit
    if ds = [] then none
    else
      let rest2 := oidGroups (rest.dropWhile Char.isDigit)
      some ({ name := p.take (p.length - rest2.length), attrId := digitsVal ds,
              has_tag := false, is_unknown := true, ptype := 0 }, rest2)
  | _ => none

/-! ### The template variant model (value_pair_tmpl_t) -/

/-- `tmpl_type_t` discriminants. -/
inductive tmpl_type_t where
  | uninitialised
  | literal
  | xlat
  | attr
  | attr_unknown
  | list
  | regex
  | exec
  | data
  | xlat_struct
  | regex_struct
  | null
deriving DecidableEq, Repr

/-- `TAG_ANY` (pair header, outside this repository): the wildcard tag. -/
def TAG_ANY : Int := -128

/-- `NUM_ANY` (tmpl header, outside this repository): unqualified
instance, meaning the first match. -/
def NUM_ANY : Int := -1

/-- `NUM_ALL` (tmpl header, outside this repository): the `[*]` instance,
meaning every match. -/
def NUM_ALL : Int := -2

/-- The `value_pair_tmpl_attr_t` payload: request scope, list selector,
descriptor handle, tag, instance number, and the placeholder name buffer
for unknown attributes.  A zeroed payload has tag 0 and num 0; the parser
only switches them to the ANY wildcards once it starts parsing an
attribute name, exactly as tmpl.c lines 709/734-735 do. -/
structure TmplAttr where
  request : request_refs_t
  list : pair_lists_t
  da : Option DictAttr
  tag : Int
  num : Int
  unknown_name : List Char
deriving DecidableEq, Repr

/-- The all-zero `value_pair_tmpl_attr_t` produced by `memset`. -/
def TmplAttr.zero : TmplAttr :=
  { request := .unknown, list := .unknown, da := none, tag := 0, num := 0, unknown_name := [] }

/-- `value_pair_tmpl_t`: discriminant, borrowed name span, consumed
length, the attribute payload, and the typed-data payload. -/
structure Tmpl where
  type : tmpl_type_t
  name : List Char
  len : Nat
  attr : TmplAttr
  dataType : Option Nat
  dataValue : Option Nat
deriving DecidableEq, Repr

/-- Outcome of `tmpl_from_attr_substr`: an error carrying the byte offset
where parsing stopped (returned to C callers as its negation), or the
parsed template with the number of bytes consumed. -/
inductive ParseRes where
  | err (off : Nat)
  | ok (vpt : Tmpl) (len : Nat)
deriving DecidableEq, Repr

/-- The `ssize_t` value a `ParseRes` stands for: `<= 0` on error
(offset as a negative integer), `> 0` on success. -/
def ParseRes.ret : ParseRes → Int
  | .err off => -(off : Int)
  | .ok _ len => (len : Int)

/-- Whether the parse failed. -/
def ParseRes.isErr : ParseRes → Bool
  | .err _ => true
  | .ok _ _ => false

/-- The white-space characters ISO C `isspace` accepts in the C locale:
space, tab, newline, vertical tab, form feed, carriage return.  libc
`strtol` skips a leading run of these. -/
def isSpaceC (c : Char) : Bool :=
  (c == ' ') || (c == '\t') || (c == '\n') || (c == '\x0b') || (c == '\x0c') || (c == '\r')

/-- The sign-and-digits portion of libc `strtol` in base 10, applied
after white-space skipping: an optional sign followed by a run of
decimal digits; `none` when no conversion can be performed.  On
success, returns the value and the rest of the input (the `endptr`). -/
def strtolNum (t : List Char) : Option (Int × List Char) :=
  match t with
  | [] => none
  | c :: rest =>
    if c = '-' then
      if rest.takeWhile Char.isDigit = [] then none
      else some (-(digitsVal (rest.takeWhile Char.isDigit) : Int), rest.dropWhile Char.isDigit)
    else if c = '+' then
      if rest.takeWhile Char.isDigit = [] then none
      else some ((digitsVal (rest.takeWhile Char.isDigit) : Int), rest.dropWhile Char.isDigit)
    else
      if (c :: rest).takeWhile Char.isDigit = [] then none
      else some ((digitsVal ((c :: rest).takeWhile Char.isDigit) : Int),
        (c :: rest).dropWhile Char.isDigit)

/-- Modelled from the spec: libc `strtol` in base 10 — skip leading
white-space (ISO C `isspace`), then an optional sign followed by a run
of decimal digits; when no conversion is performed the value is 0 and
the `endptr` is the original input pointer.  Returns the parsed value
and the remaining input (the `endptr`). -/
def strtolM (s : List Char) : Int × List Char :=
  (strtolNum (s.dropWhile isSpaceC)).getD (0, s)

/-- Modelled from the spec: the placeholder name buffer inside the
template is bounded (its exact size is struct-layout dependent). -/
def fugly_name_size : Nat := 128

/-- The `finish` label of `tmpl_from_attr_substr` (tmpl.c lines 822-838):
build the template; `len` is `p - name`. -/
def tmpl_finish (name : List Char) (n : Nat) (ty : tmpl_type_t) (a : TmplAttr)
    (p : List Char) : ParseRes :=
  .ok { type := ty, name := name, len := n - p.length, attr := a,
        dataType := none, dataValue := none } (n - p.length)

/-- The `skip_tag` portion of `tmpl_from_attr_substr` (tmpl.c lines
791-820): optional `[<digits>]` / `[*]` instance suffix, then finish. -/
def tmpl_parse_idx (name : List Char) (n : Nat) (ty : tmpl_type_t) (a : TmplAttr)
    (p : List Char) : ParseRes :=
  if p = [] then tmpl_finish name n ty a p
  else if p.head? = some '[' then
    let p1 := p.tail
    if p1.head? = some '*' then
      let p2 := p1.tail
      if p2.head? = some ']' then tmpl_finish name n ty { a with num := NUM_ALL } p2.tail
      else .err (n - p2.length)
    else
      let r := strtolM p1
      if r.2 = p1 then .err (n - p1.length)
      else if r.1 > 1000 ∨ r.1 < 0 then .err (n - p1.length)
      else
        if r.2.head? = some ']' then tmpl_finish name n ty { a with num := r.1 } r.2.tail
        else .err (n - r.2.length)
  else tmpl_finish name n ty a p

/-- The tag suffix portion of `tmpl_from_attr_substr` (tmpl.c lines
772-789), entered after a successful catalogue lookup:
optional `:<digits>` tag, legal only for tag-capable attributes and
values 0-31; the error offset for an out-of-range tag is the position
just after the colon. -/
def tmpl_parse_tag (name : List Char) (n : Nat) (a : TmplAttr) (da : DictAttr)
    (p : List Char) : ParseRes :=
  if p.head? = some ':' then
    if da.has_tag = false then .err (n - p.length)
    else
      let r := strtolM p.tail
      if r.1 > 31 ∨ r.1 < 0 then .err (n - p.tail.length)
      else tmpl_parse_idx name n .attr { a with tag := r.1 } r.2
  else tmpl_parse_idx name n .attr a p

/-- `tmpl_from_attr_substr` (tmpl.c lines 697-839): parse one attribute
reference with qualifiers from the start of `name`. -/
def tmpl_from_attr_substr (dict : List DictAttr) (name : List Char)
    (request_def : request_refs_t) (list_def : pair_lists_t) : ParseRes :=
  let n := name.length
  let fa :=
    if name.head? = some '&' then (true, name.tail) else (false, name)
  let rq := radius_request_name fa.2 request_def
  if rq.1 = request_refs_t.unknown then .err (n - rq.2.length)
  else
    let rl := radius_list_name rq.2 list_def
    if rl.1 = pair_lists_t.unknown then .err (n - rl.2.length)
    else if rl.2 = [] then
      tmpl_finish name n .list { TmplAttr.zero with request := rq.1, list := rl.1 } []
    else
      let a0 : TmplAttr :=
        { TmplAttr.zero with request := rq.1, list := rl.1, tag := TAG_ANY, num := NUM_ANY }
      match dict_attrbyname_substr dict rl.2 with
      | some dap => tmpl_parse_tag name n { a0 with da := some dap.1 } dap.1 dap.2
      | none =>
        match dict_unknown_from_substr rl.2 with
        | some uap => tmpl_parse_idx name n .attr { a0 with da := some uap.1 } uap.2
        | none =>
          if fa.1 = false then .err (n - rl.2.length)
          else
            let run := rl.2.takeWhile dict_attr_allowed_chars
            if fugly_name_size ≤ run.length then
              .err ((n - rl.2.length) + (fugly_name_size - 1))
            else
              tmpl_parse_idx name n .attr_unknown { a0 with unknown_name := run }
                (rl.2.dropWhile dict_attr_allowed_chars)

/-! ### The printer (tmpl_prints, tmpl.c lines 938-1133) -/

/-- Decimal representation of an `Int` (`snprintf` with `%d`/`%i`). -/
def intToChars (i : Int) : List Char :=
  if i < 0 then '-' :: natToDigits (-i).toNat else natToDigits i.toNat

/-- The attribute-reference branches of `tmpl_prints` (tmpl.c lines
990-1065): leading `&`, then `<request-ref>.<list-name>:` only when the
scope or the list differ from the Current/request defaults, then the
attribute name, then `:<tag>` if the tag is not ANY, then `[<index>]` if
the index is not ANY (for unknown attributes, no tag part).  Kinds other
than attribute references (literal/xlat/exec/regex quoting and escaping,
typed data) are not modelled here: no claim concerns them, and the
function returns the empty string for them. -/
def tmpl_prints (vpt : Tmpl) : List Char :=
  match vpt.type with
  | .attr =>
    let daName :=
      match vpt.attr.da with
      | some da => da.name
      | none => []
    let base :=
      if vpt.attr.request = request_refs_t.current then
        if vpt.attr.list = pair_lists_t.request then daName
        else fr_int2str pair_lists vpt.attr.list ++ ':' :: daName
      else
        fr_int2str request_refs vpt.attr.request ++
          '.' :: (fr_int2str pair_lists vpt.attr.list ++ ':' :: daName)
    let withTag :=
      if vpt.attr.tag ≠ TAG_ANY then base ++ ':' :: intToChars vpt.attr.tag else base
    let withNum :=
      if vpt.attr.num ≠ NUM_ANY then withTag ++ '[' :: (intToChars vpt.attr.num ++ [']'])
      else withTag
    '&' :: withNum
  | .attr_unknown =>
    let base :=
      if vpt.attr.request = request_refs_t.current then
        if vpt.attr.list = pair_lists_t.request then vpt.attr.unknown_name
        else fr_int2str pair_lists vpt.attr.list ++ ':' :: vpt.attr.unknown_name
      else
        fr_int2str request_refs vpt.attr.request ++
          '.' :: (fr_int2str pair_lists vpt.attr.list ++ ':' :: vpt.attr.unknown_name)
    let withNum :=
      if vpt.attr.num ≠ NUM_ANY then base ++ '[' :: (intToChars vpt.attr.num ++ [']'])
      else base
    '&' :: withNum
  | _ => []

/-! ### The request graph and the list resolver (tmpl.c lines 173-379) -/

/-- One attribute-value pair, reduced to what the cursor compares:
descriptor identity and tag. -/
structure VP where
  daId : Nat
  tag : Int
deriving DecidableEq, Repr

/-- A RADIUS_PACKET: protocol code and its pair collection. -/
structure Packet where
  code : Nat
  vps : List VP
deriving DecidableEq, Repr

/-- The change-of-authorization sub-request (`request->coa`): its proxied
packet (asserted non-NULL by the source) and optional proxied reply. -/
structure CoaSub where
  proxy : Packet
  proxy_reply : Option Packet
deriving DecidableEq, Repr

/-- A REQUEST node: optional parent/outer link, packet, reply, control
items, optional proxied leg and optional CoA sub-request. -/
inductive Request where
  | mk (parent : Option Request) (packet : Packet) (reply : Packet)
      (config_items : List VP) (proxy : Option Packet) (proxy_reply : Option Packet)
      (coa : Option CoaSub)

def Request.parent : Request → Option Request
  | .mk p _ _ _ _ _ _ => p

def Request.packet : Request → Packet
  | .mk _ pk _ _ _ _ _ => pk

def Request.reply : Request → Packet
  | .mk _ _ rp _ _ _ _ => rp

def Request.config_items : Request → List VP
  | .mk _ _ _ ci _ _ _ => ci

def Request.proxy : Request → Option Packet
  | .mk _ _ _ _ px _ _ => px

def Request.proxy_reply : Request → Option Packet
  | .mk _ _ _ _ _ pr _ => pr

def Request.coa : Request → Option CoaSub
  | .mk _ _ _ _ _ _ c => c

/-- Replace the proxied reply of a request, keeping everything else. -/
def Request.setProxyReply : Request → Option Packet → Request
  | .mk par pk rp ci px _ c, pr => .mk par pk rp ci px pr c

/-- `PW_CODE_COA_REQUEST` (RFC 5176 packet code). -/
def PW_CODE_COA_REQUEST : Nat := 43

/-- `PW_CODE_DISCONNECT_REQUEST` (RFC 5176 packet code). -/
def PW_CODE_DISCONNECT_REQUEST : Nat := 40

/-- The `VALUE_PAIR **` handle `radius_list` returns: which `vps` slot of
the request graph the caller is given a pointer to. -/
inductive ListHandle where
  | packetVps
  | replyVps
  | configItems
  | proxyVps
  | proxyReplyVps
  | coaProxyVps
  | coaProxyReplyVps
deriving DecidableEq, Repr

/-- `radius_list` (tmpl.c lines 173-237): resolve a list selector on a
request to the pair-collection handle, or `none` when the list is not
available.  Note that the `PAIR_LIST_DM_REPLY` case returns
`&request->coa->proxy->vps` (tmpl.c line 227), the same slot as
`PAIR_LIST_DM`, and that `PAIR_LIST_PROXY_REPLY` only checks
`request->proxy` before taking the address inside `request->proxy_reply`
(tmpl.c lines 196-198). -/
def radius_list (r : Request) (list : pair_lists_t) : Option ListHandle :=
  match list with
  | .request => some .packetVps
  | .reply => some .replyVps
  | .control => some .configItems
  | .proxy_request =>
    match r.proxy with
    | none => none
    | some _ => some .proxyVps
  | .proxy_reply =>
    match r.proxy with
    | none => none
    | some _ => some .proxyReplyVps
  | .coa =>
    match r.coa with
    | some c => if c.proxy.code = PW_CODE_COA_REQUEST then some .coaProxyVps else none
    | none => none
  | .coa_reply =>
    match r.coa with
    | some c =>
      if c.proxy.code = PW_CODE_COA_REQUEST ∧ c.proxy_reply.isSome then
        some .coaProxyReplyVps
      else none
    | none => none
  | .dm =>
    match r.coa with
    | some c => if c.proxy.code = PW_CODE_DISCONNECT_REQUEST then some .coaProxyVps else none
    | none => none
  | .dm_reply =>
    match r.coa with
    | some c =>
      if c.proxy.code = PW_CODE_DISCONNECT_REQUEST ∧ c.proxy_reply.isSome then
        some .coaProxyVps
      else none
    | none => none
  | .unknown => none

/-- Read the collection a handle denotes (dereferencing the pointer
`radius_list` returned; a missing packet reads as the empty list, a case
no claim exercises). -/
def derefListHandle (r : Request) : ListHandle → List VP
  | .packetVps => r.packet.vps
  | .replyVps => r.reply.vps
  | .configItems => r.config_items
  | .proxyVps =>
    match r.proxy with
    | some p => p.vps
    | none => []
  | .proxyReplyVps =>
    match r.proxy_reply with
    | some p => p.vps
    | none => []
  | .coaProxyVps =>
    match r.coa with
    | some c => c.proxy.vps
    | none => []
  | .coaProxyReplyVps =>
    match r.coa with
    | some c =>
      match c.proxy_reply with
      | some p => p.vps
      | none => []
    | none => []

/-- `radius_request` (tmpl.c lines 356-379): re-scope a request; Current
keeps it, Parent/Outer follow one parent link and fail (-1, modelled as
`none`) when there is none. -/
def radius_request (r : Request) (ref : request_refs_t) : Option Request :=
  match ref with
  | .current => some r
  | .parent => r.parent
  | .outer => r.parent
  | .unknown => none

/-! ### The cursor (tmpl_cursor_init / tmpl_cursor_next, tmpl.c lines 1323-1413) -/

/-- Modelled from the spec: the match test of `fr_cursor_next_by_da`
(pair cursor primitive, outside this repository) — the element's
catalogue descriptor matches, and the tag matches (the ANY tag is a
wildcard). -/
def vpMatches (da : DictAttr) (tag : Int) (vp : VP) : Bool :=
  vp.daId == da.attrId && (tag == TAG_ANY || vp.tag == tag)

/-- Modelled from the spec: `fr_cursor_next_by_da` — scan forward from
the cursor position to the next element whose descriptor and tag match;
returns the match (if any) and the new cursor position (the elements
not yet examined past). -/
def fr_cursor_next_by_da (st : List VP) (da : DictAttr) (tag : Int) :
    Option VP × List VP :=
  match st with
  | [] => (none, [])
  | v :: rest =>
    if vpMatches da tag v then (some v, rest)
    else fr_cursor_next_by_da rest da tag

/-- The counting loop of `tmpl_cursor_init` (tmpl.c lines 1362-1371):
repeatedly take the next matching element; once `num` has counted down
to zero or below, yield it.  (`NUM_ALL` is negative, so it yields the
first match here and the rest via `tmpl_cursor_next`.) -/
def cursorSeek (st : List VP) (da : DictAttr) (tag : Int) (num : Int) :
    Option VP × List VP :=
  match st with
  | [] => (none, [])
  | v :: rest =>
    if vpMatches da tag v then
      if num ≤ 0 then (some v, rest) else cursorSeek rest da tag (num - 1)
    else cursorSeek rest da tag num

/-- `tmpl_cursor_init` (tmpl.c lines 1323-1383): returns the error code
(0 ok, -1 not found, -2 list unavailable, -3 scope unreachable), the
first yielded pair, and the cursor state for `tmpl_cursor_next`. -/
def tmpl_cursor_init (r : Request) (vpt : Tmpl) : Int × Option VP × List VP :=
  match radius_request r vpt.attr.request with
  | none => (-3, none, [])
  | some r2 =>
    match radius_list r2 vpt.attr.list with
    | none => (-2, none, [])
    | some h =>
      let vps := derefListHandle r2 h
      match vpt.type with
      | .attr =>
        match vpt.attr.da with
        | none => (0, none, [])
        | some da =>
          if vpt.attr.num = NUM_ANY then
            match fr_cursor_next_by_da vps da vpt.attr.tag with
            | (none, st) => (-1, none, st)
            | (some v, st) => (0, some v, st)
          else
            match cursorSeek vps da vpt.attr.tag vpt.attr.num with
            | (none, st) => (-1, none, st)
            | (some v, st) => (0, some v, st)
      | .list =>
        match vps with
        | [] => (0, none, [])
        | v :: rest => (0, some v, rest)
      | _ => (0, none, [])

/-- `tmpl_cursor_next` (tmpl.c lines 1393-1413): for attribute templates
only the `NUM_ALL` instance keeps yielding; list templates walk the
whole collection. -/
def tmpl_cursor_next (vpt : Tmpl) (st : List VP) : Option VP × List VP :=
  match vpt.type with
  | .attr =>
    if vpt.attr.num ≠ NUM_ALL then (none, st)
    else
      match vpt.attr.da with
      | none => (none, st)
      | some da => fr_cursor_next_by_da st da vpt.attr.tag
  | .list =>
    match st with
    | [] => (none, [])
    | v :: rest => (some v, rest)
  | _ => (none, st)

lemma fr_cursor_next_by_da_len (da : DictAttr) (tag : Int) : ∀ st v st2,
    fr_cursor_next_by_da st da tag = (some v, st2) → st2.length < st.length := by
  intro st
  induction st with
  | nil => intro v st2 h; cases h
  | cons x rest ih =>
    intro v st2 h
    by_cases hm : vpMatches da tag x
    · simp only [fr_cursor_next_by_da, if_pos hm] at h
      cases h
      simp
    · simp only [fr_cursor_next_by_da, if_neg hm] at h
      have := ih v st2 h
      simp only [List.length_cons]
      omega

lemma tmpl_cursor_next_len (vpt : Tmpl) (st : List VP) (v : VP) (st2 : List VP)
    (h : tmpl_cursor_next vpt st = (some v, st2)) : st2.length < st.length := by
  unfold tmpl_cursor_next at h
  cases hty : vpt.type <;> rw [hty] at h <;> try cases h
  case attr =>
    by_cases hnum : vpt.attr.num ≠ NUM_ALL
    · rw [if_pos hnum] at h; cases h
    · rw [if_neg hnum] at h
      cases hda : vpt.attr.da with
      | none => rw [hda] at h; cases h
      | some da =>
        rw [hda] at h
        exact fr_cursor_next_by_da_len da vpt.attr.tag st v st2 h
  case list =>
    cases st with
    | nil => cases h
    | cons x rest => cases h; simp

/-- Iterate `tmpl_cursor_next` to exhaustion, collecting the yielded
pairs in order. -/
def cursorIter (vpt : Tmpl) (st : List VP) : List VP :=
  match h : tmpl_cursor_next vpt st with
  | (none, _) => []
  | (some v, st2) => v :: cursorIter vpt st2
termination_by st.length
decreasing_by
  exact tmpl_cursor_next_len vpt st v st2 h

/-- The full sequence a template denotes on a request: the pair returned
by `tmpl_cursor_init` followed by every pair `tmpl_cursor_next` yields,
together with the error code of the initialisation. -/
def tmplCursorYield (r : Request) (vpt : Tmpl) : Int × List VP :=
  match tmpl_cursor_init r vpt with
  | (e, none, _) => (e, [])
  | (e, some v, st) => (e, v :: cursorIter vpt st)

/-! ### The caster (tmpl_cast_in_place, tmpl.c lines 1227-1266) -/

/-- `PW_TYPE_INTEGER` (radius type code, outside this repository). -/
def PW_TYPE_INTEGER : Nat := 3

/-- Modelled from the spec: `pairparsevalue` (outside this repository),
the "parse value from string into typed buffer" primitive, specialised
to what the claims exercise — for the integer type the text must be a
non-empty run of decimal digits; other types are not modelled and fail. -/
def pairparsevalue (ptype : Nat) (s : List Char) : Option Nat :=
  if ptype = PW_TYPE_INTEGER then
    if s ≠ [] ∧ s.all Char.isDigit then some (digitsVal s) else none
  else none

/-- `tmpl_cast_in_place` (tmpl.c lines 1227-1266): parse a literal
template's text as the dictionary attribute's type.  On failure the
function returns false before the `memset`, leaving the template
untouched; on success the data union is cleared and refilled with the
typed value. -/
def tmpl_cast_in_place (vpt : Tmpl) (da : DictAttr) : Bool × Tmpl :=
  match pairparsevalue da.ptype vpt.name with
  | none => (false, vpt)
  | some v =>
    (true, { vpt with
              type := .data, attr := TmplAttr.zero,
              dataType := some da.ptype, dataValue := some v })

/-! ### Sample data for concrete instances -/

/-- A tag-capable integer attribute (Tunnel-Type is tag-capable in the
standard dictionary). -/
def tunnelType : DictAttr :=
  { name := "Tunnel-Type".toList, attrId := 64, has_tag := true, is_unknown := false,
    ptype := PW_TYPE_INTEGER }

/-- A plain string attribute without tag support. -/
def userName : DictAttr :=
  { name := "User-Name".toList, attrId := 1, has_tag := false, is_unknown := false,
    ptype := 1 }

/-- A small catalogue. -/
def sampleDict : List DictAttr := [userName, tunnelType]

/-- An attribute-reference template with the given scope, list,
descriptor, tag and instance (the cursor does not read the name span). -/
def mkAttrTmpl (scope : request_refs_t) (lst : pair_lists_t) (da : DictAttr)
    (tag num : Int) : Tmpl :=
  { type := .attr, name := [], len := 0,
    attr := { request := scope, list := lst, da := some da, tag := tag, num := num,
              unknown_name := [] },
    dataType := none, dataValue := none }

/-- The canonical attribute-reference string with explicit request
scope, list name, tag and instance index, exactly as the printer lays
it out. -/
def canonAttrRef (scope : request_refs_t) (lst : pair_lists_t) (aname : List Char)
    (tag num : Nat) : List Char :=
  '&' :: (fr_int2str request_refs scope ++
    '.' :: (fr_int2str pair_lists lst ++
      ':' :: (aname ++ ':' :: (natToDigits tag ++ '[' :: (natToDigits num ++ [']'])))))

/-- A literal template over the given text. -/
def litTmpl (s : List Char) : Tmpl :=
  { type := .literal, name := s, len := s.length, attr := TmplAttr.zero,
    dataType := none, dataValue := none }

def pktA : Packet := { code := 1, vps := [] }

def pktB : Packet := { code := 2, vps := [] }

/-- A request with no parent link and an empty packet list. -/
def reqBare : Request := .mk none pktA pktB [] none none none

/-- A CoA sub-request whose proxied packet is a Disconnect-Request and
whose proxied reply is present. -/
def coaDmSub : CoaSub :=
  { proxy := { code := PW_CODE_DISCONNECT_REQUEST, vps := [] },
    proxy_reply := some { code := 41, vps := [] } }

/-- A request whose coa sub-request proxies a Disconnect-Request. -/
def reqDmCoa : Request := .mk none pktA pktB [] none none (some coaDmSub)

/-- A request with a proxied request but no proxied reply. -/
def reqProxyNoReply : Request :=
  .mk none pktA pktB [] (some { code := 3, vps := [] }) none none

/-! ### Supporting lemmas -/

lemma digitChar_toNat (k : Nat) (h : k < 10) : (digitChar k).toNat = 48 + k := by
  interval_cases k <;> decide

lemma digitChar_isDigit (k : Nat) (h : k < 10) : (digitChar k).isDigit = true := by
  interval_cases k <;> decide

lemma foldl_digits_from (l : List Char) : ∀ v : Nat,
    l.foldl (fun a c => a * 10 + (c.toNat - 48)) v
      = v * 10 ^ l.length + l.foldl (fun a c => a * 10 + (c.toNat - 48)) 0 := by
  induction l with
  | nil => intro v; simp
  | cons c t ih =>
    intro v
    simp only [List.foldl_cons, List.length_cons]
    rw [ih (v * 10 + (c.toNat - 48)), ih (0 * 10 + (c.toNat - 48))]
    ring

lemma digitsVal_cons (c : Char) (t : List Char) :
    digitsVal (c :: t) = (c.toNat - 48) * 10 ^ t.length + digitsVal t := by
  simp only [digitsVal, List.foldl_cons]
  rw [foldl_digits_from]
  ring_nf

lemma natToDigitsAux_val : ∀ fuel n acc, n < 10 ^ fuel →
    digitsVal (natToDigitsAux fuel n acc) = n * 10 ^ acc.length + digitsVal acc := by
  intro fuel
  induction fuel with
  | zero =>
    intro n acc h
    simp only [pow_zero, Nat.lt_one_iff] at h
    subst h
    simp [natToDigitsAux]
  | succ fuel ih =>
    intro n acc h
    by_cases h10 : n < 10
    · simp only [natToDigitsAux, if_pos h10]
      rw [digitsVal_cons, digitChar_toNat n h10, Nat.add_sub_cancel_left]
    · simp only [natToDigitsAux, if_neg h10]
      have hdiv : n / 10 < 10 ^ fuel := by
        rw [Nat.div_lt_iff_lt_mul (by norm_num : (0:Nat) < 10)]
        calc n < 10 ^ (fuel + 1) := h
          _ = 10 ^ fuel * 10 := by ring
      rw [ih (n / 10) _ hdiv, digitsVal_cons,
        digitChar_toNat (n % 10) (Nat.mod_lt n (by norm_num)),
        Nat.add_sub_cancel_left, List.length_cons]
      have hdm : 10 * (n / 10) + n % 10 = n := Nat.div_add_mod n 10
      conv_rhs => rw [← hdm]
      ring

lemma lt_ten_pow_succ (n : Nat) : n < 10 ^ (n + 1) := by
  calc n < 2 ^ n * 1 := by simpa using Nat.lt_two_pow n
    _ ≤ 10 ^ n * 10 := Nat.mul_le_mul (Nat.pow_le_pow_left (by norm_num) n) (by norm_num)
    _ = 10 ^ (n + 1) := by ring

lemma digitsVal_natToDigits (n : Nat) : digitsVal (natToDigits n) = n := by
  have h := natToDigitsAux_val (n + 1) n [] (lt_ten_pow_succ n)
  simpa [natToDigits, digitsVal] using h

lemma natToDigitsAux_all_digit : ∀ fuel n acc,
    (∀ c ∈ acc, c.isDigit = true) → ∀ c ∈ natToDigitsAux fuel n acc, c.isDigit = true := by
  intro fuel
  induction fuel with
  | zero => intro n acc hacc; exact hacc
  | succ fuel ih =>
    intro n acc hacc c hc
    by_cases h10 : n < 10
    · simp only [natToDigitsAux, if_pos h10] at hc
      rcases List.mem_cons.mp hc with rfl | hmem
      · exact digitChar_isDigit n h10
      · exact hacc c hmem
    · simp only [natToDigitsAux, if_neg h10] at hc
      refine ih (n / 10) _ ?_ c hc
      intro d hd
      rcases List.mem_cons.mp hd with rfl | hmem
      · exact digitChar_isDigit (n % 10) (Nat.mod_lt n (by norm_num))
      · exact hacc d hmem

lemma natToDigits_all_digit (n : Nat) : ∀ c ∈ natToDigits n, c.isDigit = true :=
  natToDigitsAux_all_digit (n + 1) n [] (by intro c hc; cases hc)

lemma natToDigitsAux_ne_nil_of_acc : ∀ fuel n acc, acc ≠ [] → natToDigitsAux fuel n acc ≠ [] := by
  intro fuel
  induction fuel with
  | zero => intro n acc h; exact h
  | succ fuel ih =>
    intro n acc h
    by_cases h10 : n < 10
    · simp [natToDigitsAux, if_pos h10]
    · simp only [natToDigitsAux, if_neg h10]
      exact ih (n / 10) _ (by simp)

lemma natToDigits_ne_nil (n : Nat) : natToDigits n ≠ [] := by
  unfold natToDigits natToDigitsAux
  by_cases h10 : n < 10
  · simp [if_pos h10]
  · simp only [if_neg h10]
    exact natToDigitsAux_ne_nil_of_acc n (n / 10) _ (by simp)

lemma splitAtChar_none (c : Char) : ∀ l : List Char, c ∉ l → splitAtChar c l = none := by
  intro l
  induction l with
  | nil => intro h; rfl
  | cons x xs ih =>
    intro h
    have hx : x ≠ c := fun hxc => h (hxc ▸ List.mem_cons_self x xs)
    have hxs : c ∉ xs := fun hm => h (List.mem_cons_of_mem x hm)
    simp [splitAtChar, hx, ih hxs]

lemma splitAtChar_append (c : Char) : ∀ pre post : List Char, c ∉ pre →
    splitAtChar c (pre ++ c :: post) = some (pre, post) := by
  intro pre
  induction pre with
  | nil => intro post h; simp [splitAtChar]
  | cons x xs ih =>
    intro post h
    have hx : x ≠ c := fun hxc => h (hxc ▸ List.mem_cons_self x xs)
    have hxs : c ∉ xs := fun hm => h (List.mem_cons_of_mem x hm)
    simp [splitAtChar, hx, ih post hxs]

lemma splitAtChar_post_len (c : Char) : ∀ l pre post,
    splitAtChar c l = some (pre, post) → post.length < l.length := by
  intro l
  induction l with
  | nil => intro pre post h; cases h
  | cons x xs ih =>
    intro pre post h
    by_cases hx : x = c
    · simp only [splitAtChar, if_pos hx] at h
      cases h
      simp
    · simp only [splitAtChar, if_neg hx] at h
      cases hsplit : splitAtChar c xs with
      | none => rw [hsplit] at h; cases h
      | some pq =>
        rw [hsplit] at h
        cases h
        have := ih pq.1 pq.2 (by rw [hsplit])
        simp only [List.length_cons]
        omega

lemma takeWhile_append_stop (p : Char → Bool) : ∀ (xs : List Char) (rest : List Char),
    (∀ x ∈ xs, p x = true) → (∀ y (t : List Char), rest = y :: t → p y = false) →
    (xs ++ rest).takeWhile p = xs := by
  intro xs
  induction xs with
  | nil =>
    intro rest _ hrest
    cases rest with
    | nil => rfl
    | cons y t => simp [List.takeWhile_cons, hrest y t rfl]
  | cons x t ih =>
    intro rest hall hrest
    have hx : p x = true := hall x (List.mem_cons_self x t)
    simp [List.takeWhile_cons, hx, ih rest (fun z hz => hall z (List.mem_cons_of_mem x hz)) hrest]

lemma dropWhile_append_stop (p : Char → Bool) : ∀ (xs : List Char) (rest : List Char),
    (∀ x ∈ xs, p x = true) → (∀ y (t : List Char), rest = y :: t → p y = false) →
    (xs ++ rest).dropWhile p = rest := by
  intro xs
  induction xs with
  | nil =>
    intro rest _ hrest
    cases rest with
    | nil => rfl
    | cons y t => simp [List.dropWhile_cons, hrest y t rfl]
  | cons x t ih =>
    intro rest hall hrest
    have hx : p x = true := hall x (List.mem_cons_self x t)
    simp [List.dropWhile_cons, hx, ih rest (fun z hz => hall z (List.mem_cons_of_mem x hz)) hrest]

lemma append_cons_ne_self {α : Type} (xs : List α) (y : α) (ys : List α) :
    xs ++ y :: ys ≠ ys := by
  intro h
  have := congrArg List.length h
  simp only [List.length_append, List.length_cons] at this
  omega

/-! ### C9: the disconnect-reply list aliases the disconnect list -/

/-- C9: for every request whose coa sub-request exists, whose proxied
packet code is Disconnect-Request and whose proxied reply is non-null,
`radius_list` for the disconnect-reply selector returns the proxied
request's collection handle (`request->coa->proxy->vps`) — the same
handle as for the disconnect selector — and not the proxied reply's
collection (`request->coa->proxy_reply->vps`). -/
theorem radius_list_dm_reply_aliases_dm (r : Request) (c : CoaSub)
    (hcoa : r.coa = some c) (hcode : c.proxy.code = PW_CODE_DISCONNECT_REQUEST)
    (hrep : c.proxy_reply.isSome = true) :
    radius_list r .dm_reply = some ListHandle.coaProxyVps
    ∧ radius_list r .dm = some ListHandle.coaProxyVps
    ∧ radius_list r .dm_reply ≠ some ListHandle.coaProxyReplyVps := by
  have h1 : radius_list r .dm_reply = some ListHandle.coaProxyVps := by
    simp [radius_list, hcoa, hcode, hrep]
  have h2 : radius_list r .dm = some ListHandle.coaProxyVps := by
    simp [radius_list, hcoa, hcode]
  exact ⟨h1, h2, by rw [h1]; decide⟩

/-- Witness for C9 at a concrete request. -/
theorem radius_list_dm_reply_aliases_dm_witness :
    radius_list reqDmCoa .dm_reply = some ListHandle.coaProxyVps
    ∧ radius_list reqDmCoa .dm = some ListHandle.coaProxyVps
    ∧ radius_list reqDmCoa .dm_reply ≠ some ListHandle.coaProxyReplyVps :=
  radius_list_dm_reply_aliases_dm reqDmCoa coaDmSub rfl rfl rfl

/-! ### C10: the proxy-reply list only checks the proxied request -/

/-- C10: `radius_list` for the proxy-reply selector returns the
unavailable result exactly when the proxied request is absent; it never
inspects `request->proxy_reply`, so a request with a proxied request but
no proxied reply still gets the handle derived from the (null)
`proxy_reply`, not the unavailable result. -/
theorem radius_list_proxy_reply_ignores_reply :
    (∀ r : Request, (radius_list r .proxy_reply = none ↔ r.proxy = none))
    ∧ (∀ r : Request, r.proxy ≠ none →
        radius_list r .proxy_reply = some ListHandle.proxyReplyVps)
    ∧ (∀ (r : Request) (pr : Option Packet),
        radius_list (r.setProxyReply pr) .proxy_reply = radius_list r .proxy_reply) := by
  refine ⟨?_, ?_, ?_⟩
  · intro r
    unfold radius_list
    cases hp : r.proxy <;> simp [hp]
  · intro r hp
    unfold radius_list
    cases hp2 : r.proxy with
    | none => exact absurd hp2 hp
    | some p => rfl
  · intro r pr
    cases r with
    | mk par pk rp ci px pr0 c =>
      cases px <;> rfl

/-- Witness for C10 at a concrete request with a proxied request and no
proxied reply. -/
theorem radius_list_proxy_reply_ignores_reply_witness :
    radius_list reqProxyNoReply .proxy_reply = some ListHandle.proxyReplyVps :=
  radius_list_proxy_reply_ignores_reply.2.1 reqProxyNoReply (by decide)

/-! ### C8: casting a literal template in place -/

/-- C8: `tmpl_cast_in_place` on a Literal-kind template: if the literal
text parses as the target dictionary type it returns true and mutates
the template into a TypedData template holding the parsed value; if it
does not parse, it returns false and the template is left unchanged,
still Literal-kind with its original text intact. -/
theorem tmpl_cast_in_place_spec (vpt : Tmpl) (da : DictAttr)
    (hlit : vpt.type = tmpl_type_t.literal) :
    (∀ v, pairparsevalue da.ptype vpt.name = some v →
        tmpl_cast_in_place vpt da =
          (true, { vpt with
                    type := .data, attr := TmplAttr.zero,
                    dataType := some da.ptype, dataValue := some v }))
    ∧ (pairparsevalue da.ptype vpt.name = none →
        tmpl_cast_in_place vpt da = (false, vpt)) := by
  constructor
  · intro v hv
    unfold tmpl_cast_in_place
    rw [hv]
  · intro hv
    unfold tmpl_cast_in_place
    rw [hv]

/-- Witness for C8: literal "123" cast to the integer type yields typed
data 123; literal "abc" fails and leaves the template unchanged. -/
theorem tmpl_cast_in_place_spec_witness :
    tmpl_cast_in_place (litTmpl ['1', '2', '3']) tunnelType =
      (true, { litTmpl ['1', '2', '3'] with
                type := .data, attr := TmplAttr.zero,
                dataType := some PW_TYPE_INTEGER, dataValue := some 123 })
    ∧ tmpl_cast_in_place (litTmpl ['a', 'b', 'c']) tunnelType =
      (false, litTmpl ['a', 'b', 'c']) :=
  ⟨(tmpl_cast_in_place_spec (litTmpl ['1', '2', '3']) tunnelType rfl).1 123 (by decide),
   (tmpl_cast_in_place_spec (litTmpl ['a', 'b', 'c']) tunnelType rfl).2 (by decide)⟩

/-! ### C6: the digit lookahead precedes the list-name match -/

/-- C6: whenever the first colon of the input is immediately followed by
a run of one or more decimal digits ending at end-of-input or at `'['`,
`radius_list_name` returns the caller's default list and consumes no
input, even when the text before the colon would match a list name: the
digit lookahead runs before any list-name match is attempted. -/
theorem radius_list_name_digit_lookahead (pre ds rest : List Char)
    (dflt : pair_lists_t) (hpre : ':' ∉ pre) (hds : ds ≠ [])
    (hdig : ∀ c ∈ ds, c.isDigit = true)
    (hrest : rest = [] ∨ ∃ t, rest = '[' :: t) :
    radius_list_name (pre ++ ':' :: (ds ++ rest)) dflt
      = (dflt, pre ++ ':' :: (ds ++ rest)) := by
  unfold radius_list_name
  rw [splitAtChar_append ':' pre (ds ++ rest) hpre]
  have hla : tagLookahead (ds ++ rest) = true := by
    cases ds with
    | nil => exact absurd rfl hds
    | cons d t =>
      have hd : d.isDigit = true := hdig d (List.mem_cons_self d t)
      have hdrop : ((d :: t) ++ rest).dropWhile Char.isDigit = rest := by
        refine dropWhile_append_stop Char.isDigit (d :: t) rest hdig ?_
        intro y yt hy
        rcases hrest with hnil | ⟨t2, ht2⟩
        · rw [hnil] at hy; cases hy
        · rw [ht2] at hy
          cases hy
          decide
      rw [List.cons_append] at hdrop ⊢
      simp only [tagLookahead, hd, Bool.true_and, hdrop]
      rcases hrest with hnil | ⟨t2, ht2⟩
      · rw [hnil]
      · rw [ht2]
        simp
  simp [hla]

/-- Witness for C6: "request:3" keeps the caller's default (reply) list
and consumes nothing even though "request" is a list name. -/
theorem radius_list_name_digit_lookahead_witness :
    radius_list_name ("request:3".toList) pair_lists_t.reply
      = (pair_lists_t.reply, "request:3".toList) := by
  have e : "request".toList ++ ':' :: (['3'] ++ []) = "request:3".toList := by decide
  have h := radius_list_name_digit_lookahead ("request".toList) ['3'] []
    pair_lists_t.reply (by decide) (by decide) (by decide) (Or.inl rfl)
  rw [e] at h
  exact h

/-! ### C2: the cursor's three distinct error codes -/

lemma fr_cursor_next_by_da_no_match (da : DictAttr) (tag : Int) : ∀ l : List VP,
    l.filter (vpMatches da tag) = [] → fr_cursor_next_by_da l da tag = (none, []) := by
  intro l
  induction l with
  | nil => intro h; rfl
  | cons x t ih =>
    intro h
    by_cases hm : vpMatches da tag x
    · rw [List.filter_cons_of_pos hm] at h
      cases h
    · rw [List.filter_cons_of_neg (by simpa using hm)] at h
      simp only [fr_cursor_next_by_da, if_neg hm]
      exact ih h

/-- C2: `tmpl_cursor_init` reports three distinct error codes, never one
boolean: -1 when the attribute/instance is not found, -2 when the list
is unavailable for the scope, -3 when the request scope is unreachable.
A Parent/Outer scope on a request with no parent link yields -3; the
coa-reply list on a request whose proxied sub-request is a
Disconnect-Request rather than a CoA-Request yields -2 with no pair
returned (no crash, no empty-but-found collection). -/
theorem tmpl_cursor_init_error_codes :
    (∀ (r : Request) (vpt : Tmpl),
        (vpt.attr.request = request_refs_t.parent ∨
         vpt.attr.request = request_refs_t.outer) →
        r.parent = none → tmpl_cursor_init r vpt = (-3, none, []))
    ∧ (∀ (r : Request) (c : CoaSub) (da : DictAttr) (tag num : Int),
        r.coa = some c → c.proxy.code = PW_CODE_DISCONNECT_REQUEST →
        tmpl_cursor_init r (mkAttrTmpl .current .coa_reply da tag num) = (-2, none, []))
    ∧ (∀ (r : Request) (da : DictAttr) (tag : Int),
        r.packet.vps.filter (vpMatches da tag) = [] →
        tmpl_cursor_init r (mkAttrTmpl .current .request da tag NUM_ANY) = (-1, none, [])) := by
  refine ⟨?_, ?_, ?_⟩
  · intro r vpt hsc hpar
    unfold tmpl_cursor_init
    rcases hsc with h | h <;> rw [h] <;> simp [radius_request, hpar]
  · intro r c da tag num hcoa hcode
    unfold tmpl_cursor_init
    have hlist : radius_list r .coa_reply = none := by
      simp [radius_list, hcoa, hcode, PW_CODE_DISCONNECT_REQUEST, PW_CODE_COA_REQUEST]
    simp [mkAttrTmpl, radius_request, hlist]
  · intro r da tag hnone
    unfold tmpl_cursor_init
    simp only [mkAttrTmpl, radius_request, radius_list, derefListHandle]
    rw [fr_cursor_next_by_da_no_match da tag r.packet.vps hnone]
    simp [NUM_ANY]

/-- Witness for C2 at concrete requests: a parentless request with an
Outer-scoped template, the Disconnect-proxying request with a coa-reply
template, and an empty request list with an attribute template. -/
theorem tmpl_cursor_init_error_codes_witness :
    tmpl_cursor_init reqBare (mkAttrTmpl .outer .request tunnelType TAG_ANY NUM_ANY)
      = (-3, none, [])
    ∧ tmpl_cursor_init reqDmCoa (mkAttrTmpl .current .coa_reply tunnelType TAG_ANY NUM_ANY)
      = (-2, none, [])
    ∧ tmpl_cursor_init reqBare (mkAttrTmpl .current .request tunnelType TAG_ANY NUM_ANY)
      = (-1, none, []) :=
  ⟨tmpl_cursor_init_error_codes.1 reqBare
      (mkAttrTmpl .outer .request tunnelType TAG_ANY NUM_ANY) (Or.inr rfl) rfl,
   tmpl_cursor_init_error_codes.2.1 reqDmCoa coaDmSub tunnelType TAG_ANY NUM_ANY rfl rfl,
   tmpl_cursor_init_error_codes.2.2 reqBare tunnelType TAG_ANY (by decide)⟩

/-! ### C3: cursor semantics for ALL / ANY / specific instances -/

lemma cursorIter_eq (vpt : Tmpl) (st : List VP) :
    cursorIter vpt st = match tmpl_cursor_next vpt st with
      | (none, _) => []
      | (some v, st2) => v :: cursorIter vpt st2 := by
  rw [cursorIter]
  split <;> rename_i heq <;> rw [heq]

lemma cursorIter_not_all (scope : request_refs_t) (lst : pair_lists_t) (da : DictAttr)
    (tag num : Int) (hnum : num ≠ NUM_ALL) (st : List VP) :
    cursorIter (mkAttrTmpl scope lst da tag num) st = [] := by
  rw [cursorIter_eq]
  simp [tmpl_cursor_next, mkAttrTmpl, hnum]

lemma cursorIter_all (da : DictAttr) (tag : Int) : ∀ l : List VP,
    cursorIter (mkAttrTmpl .current .request da tag NUM_ALL) l
      = l.filter (vpMatches da tag) := by
  intro l
  induction l with
  | nil =>
    rw [cursorIter_eq]
    simp [tmpl_cursor_next, mkAttrTmpl, fr_cursor_next_by_da]
  | cons x t ih =>
    by_cases hm : vpMatches da tag x
    · have hnext : tmpl_cursor_next (mkAttrTmpl .current .request da tag NUM_ALL) (x :: t)
          = (some x, t) := by
        simp [tmpl_cursor_next, mkAttrTmpl, fr_cursor_next_by_da, hm]
      rw [cursorIter_eq, hnext]
      show x :: cursorIter (mkAttrTmpl .current .request da tag NUM_ALL) t
          = List.filter (vpMatches da tag) (x :: t)
      rw [List.filter_cons_of_pos hm, ih]
    · have hstep : tmpl_cursor_next (mkAttrTmpl .current .request da tag NUM_ALL) (x :: t)
          = tmpl_cursor_next (mkAttrTmpl .current .request da tag NUM_ALL) t := by
        simp [tmpl_cursor_next, mkAttrTmpl, fr_cursor_next_by_da, hm]
      rw [cursorIter_eq, hstep, ← cursorIter_eq, ih,
        List.filter_cons_of_neg (by simpa using hm)]

lemma fr_cursor_next_by_da_fst (da : DictAttr) (tag : Int) : ∀ l : List VP,
    (fr_cursor_next_by_da l da tag).1 = (l.filter (vpMatches da tag)).head? := by
  intro l
  induction l with
  | nil => rfl
  | cons x t ih =>
    by_cases hm : vpMatches da tag x
    · simp [fr_cursor_next_by_da, if_pos hm, List.filter_cons_of_pos hm]
    · simp only [fr_cursor_next_by_da, if_neg hm]
      rw [ih, List.filter_cons_of_neg (by simpa using hm)]

lemma cursorSeek_nonpos (da : DictAttr) (tag : Int) : ∀ (l : List VP) (num : Int),
    num ≤ 0 → cursorSeek l da tag num = fr_cursor_next_by_da l da tag := by
  intro l
  induction l with
  | nil => intro num h; rfl
  | cons x t ih =>
    intro num h
    by_cases hm : vpMatches da tag x
    · simp [cursorSeek, fr_cursor_next_by_da, hm, h]
    · simp [cursorSeek, fr_cursor_next_by_da, hm, ih num h]

lemma cursorSeek_nat_fst (da : DictAttr) (tag : Int) : ∀ (l : List VP) (k : Nat),
    (cursorSeek l da tag (k : Int)).1 = ((l.filter (vpMatches da tag)).drop k).head? := by
  intro l
  induction l with
  | nil => intro k; simp [cursorSeek]
  | cons x t ih =>
    intro k
    by_cases hm : vpMatches da tag x
    · cases k with
      | zero =>
        simp [cursorSeek, hm, List.filter_cons_of_pos hm]
      | succ k2 =>
        have hk : ¬(((k2 + 1 : Nat) : Int) ≤ 0) := by
          push_cast
          omega
        have hsub : ((k2 + 1 : Nat) : Int) - 1 = (k2 : Int) := by
          push_cast
          ring
        simp only [cursorSeek, if_pos hm, if_neg hk, hsub]
        rw [ih k2, List.filter_cons_of_pos hm]
        rfl
    · simp only [cursorSeek, if_neg hm]
      rw [ih k, List.filter_cons_of_neg (by simpa using hm)]

lemma take_one_eq_head_toList (l : List VP) : l.take 1 = l.head?.toList := by
  cases l <;> rfl

lemma tmpl_cursor_init_attr_current (r : Request) (da : DictAttr) (tag num : Int) :
    tmpl_cursor_init r (mkAttrTmpl .current .request da tag num)
      = if num = NUM_ANY then
          match fr_cursor_next_by_da r.packet.vps da tag with
          | (none, st) => (-1, none, st)
          | (some v, st) => (0, some v, st)
        else
          match cursorSeek r.packet.vps da tag num with
          | (none, st) => (-1, none, st)
          | (some v, st) => (0, some v, st) := rfl

lemma yield_all_list (da : DictAttr) (tag : Int) : ∀ l : List VP,
    (match fr_cursor_next_by_da l da tag with
     | (none, _) => ([] : List VP)
     | (some v, st) => v :: cursorIter (mkAttrTmpl .current .request da tag NUM_ALL) st)
      = l.filter (vpMatches da tag) := by
  intro l
  induction l with
  | nil => rfl
  | cons x t ih =>
    by_cases hm : vpMatches da tag x
    · simp only [fr_cursor_next_by_da, if_pos hm]
      show x :: cursorIter (mkAttrTmpl .current .request da tag NUM_ALL) t = _
      rw [cursorIter_all da tag t, List.filter_cons_of_pos hm]
    · simp only [fr_cursor_next_by_da, if_neg hm]
      rw [ih, List.filter_cons_of_neg (by simpa using hm)]

lemma tmplCursorYield_attr (r : Request) (da : DictAttr) (tag num : Int) :
    (tmplCursorYield r (mkAttrTmpl .current .request da tag num)).2
      = (match (if num = NUM_ANY then fr_cursor_next_by_da r.packet.vps da tag
                else cursorSeek r.packet.vps da tag num) with
         | (none, _) => []
         | (some v, st) => v :: cursorIter (mkAttrTmpl .current .request da tag num) st) := by
  unfold tmplCursorYield
  rw [tmpl_cursor_init_attr_current]
  by_cases hnum : num = NUM_ANY
  · rw [if_pos hnum, if_pos hnum]
    rcases hE : fr_cursor_next_by_da r.packet.vps da tag with ⟨v?, st⟩
    cases v? <;> rfl
  · rw [if_neg hnum, if_neg hnum]
    rcases hE : cursorSeek r.packet.vps da tag num with ⟨v?, st⟩
    cases v? <;> rfl

/-- C3: iterating an attribute-reference template with
`tmpl_cursor_init` and `tmpl_cursor_next` over the resolved collection:
with instance ALL every element matching the descriptor and tag is
yielded in collection order (the filter of the collection); with
instance ANY only the first match is yielded and every following
`tmpl_cursor_next` yields none; with a specific instance K only the K-th
match (0-based) is yielded, and nothing when fewer than K+1 matches
exist. -/
theorem tmpl_cursor_instance_semantics :
    (∀ (r : Request) (da : DictAttr) (tag : Int),
        (tmplCursorYield r (mkAttrTmpl .current .request da tag NUM_ALL)).2
          = r.packet.vps.filter (vpMatches da tag))
    ∧ (∀ (r : Request) (da : DictAttr) (tag : Int),
        (tmplCursorYield r (mkAttrTmpl .current .request da tag NUM_ANY)).2
          = (r.packet.vps.filter (vpMatches da tag)).take 1)
    ∧ (∀ (r : Request) (da : DictAttr) (tag : Int) (k : Nat),
        (tmplCursorYield r (mkAttrTmpl .current .request da tag (k : Int))).2
          = ((r.packet.vps.filter (vpMatches da tag)).drop k).take 1)
    ∧ (∀ (da : DictAttr) (tag : Int) (st : List VP),
        (tmpl_cursor_next (mkAttrTmpl .current .request da tag NUM_ANY) st).1 = none) := by
  refine ⟨?_, ?_, ?_, ?_⟩
  · intro r da tag
    rw [tmplCursorYield_attr, if_neg (by decide : ¬(NUM_ALL = NUM_ANY)),
      cursorSeek_nonpos da tag _ NUM_ALL (by decide)]
    exact yield_all_list da tag r.packet.vps
  · intro r da tag
    rw [tmplCursorYield_attr, if_pos rfl]
    have h := fr_cursor_next_by_da_fst da tag r.packet.vps
    rcases hE : fr_cursor_next_by_da r.packet.vps da tag with ⟨v?, st⟩
    rw [hE] at h
    rw [take_one_eq_head_toList, ← h]
    cases v? with
    | none => rfl
    | some v =>
      show v :: cursorIter (mkAttrTmpl .current .request da tag NUM_ANY) st
          = (some v).toList
      rw [cursorIter_not_all .current .request da tag NUM_ANY (by decide) st]
      rfl
  · intro r da tag k
    have hne : ¬((k : Int) = NUM_ANY) := by
      simp only [NUM_ANY]
      omega
    rw [tmplCursorYield_attr, if_neg hne]
    have h := cursorSeek_nat_fst da tag r.packet.vps k
    rcases hE : cursorSeek r.packet.vps da tag (k : Int) with ⟨v?, st⟩
    rw [hE] at h
    rw [take_one_eq_head_toList, ← h]
    cases v? with
    | none => rfl
    | some v =>
      show v :: cursorIter (mkAttrTmpl .current .request da tag (k : Int)) st
          = (some v).toList
      have hka : ¬((k : Int) = NUM_ALL) := by
        simp only [NUM_ALL]
        omega
      rw [cursorIter_not_all .current .request da tag (k : Int) hka st]
      rfl
  · intro da tag st
    simp [tmpl_cursor_next, mkAttrTmpl, NUM_ANY, NUM_ALL]

/-! ### Parsing-stage lemmas shared by the parser claims -/

lemma takeWhile_all (p : Char → Bool) : ∀ l : List Char,
    (∀ c ∈ l, p c = true) → l.takeWhile p = l := by
  intro l
  induction l with
  | nil => intro h; rfl
  | cons x t ih =>
    intro h
    rw [List.takeWhile_cons_of_pos (h x (List.mem_cons_self x t)),
      ih (fun c hc => h c (List.mem_cons_of_mem x hc))]

lemma dropWhile_all (p : Char → Bool) : ∀ l : List Char,
    (∀ c ∈ l, p c = true) → l.dropWhile p = [] := by
  intro l
  induction l with
  | nil => intro h; rfl
  | cons x t ih =>
    intro h
    rw [List.dropWhile_cons_of_pos (h x (List.mem_cons_self x t)),
      ih (fun c hc => h c (List.mem_cons_of_mem x hc))]

lemma radius_request_name_known (rr rest : List Char) (d scope : request_refs_t)
    (hdot : '.' ∉ rr)
    (hlook : fr_substr2int request_refs request_refs_t.unknown rr = scope)
    (hne : scope ≠ request_refs_t.unknown) :
    radius_request_name (rr ++ '.' :: rest) d = (scope, rest) := by
  unfold radius_request_name
  rw [splitAtChar_append '.' rr rest hdot]
  simp [hlook, hne]

lemma radius_request_name_nodot (p : List Char) (d : request_refs_t)
    (hdot : '.' ∉ p) : radius_request_name p d = (d, p) := by
  unfold radius_request_name
  rw [splitAtChar_none '.' p hdot]

lemma radius_list_name_known (ln rest : List Char) (d lst : pair_lists_t)
    (hcol : ':' ∉ ln)
    (hlk : tagLookahead rest = false)
    (hlook : fr_substr2int pair_lists pair_lists_t.unknown ln = lst)
    (hne : lst ≠ pair_lists_t.unknown) :
    radius_list_name (ln ++ ':' :: rest) d = (lst, rest) := by
  unfold radius_list_name
  rw [splitAtChar_append ':' ln rest hcol]
  simp [hlk, hlook, hne]

lemma first_nondigit_not_bracket (ys : List Char) : ∀ xs : List Char,
    (∀ c ∈ xs, dict_attr_allowed_chars c = true) →
    ∃ d t, (xs ++ ':' :: ys).dropWhile Char.isDigit = d :: t ∧ d ≠ '[' := by
  intro xs
  induction xs with
  | nil =>
    intro h
    exact ⟨':', ys, by rw [List.nil_append, List.dropWhile_cons_of_neg (by decide)], by decide⟩
  | cons c t ih =>
    intro h
    by_cases hd : c.isDigit
    · obtain ⟨d, t2, hdrop, hdb⟩ := ih (fun z hz => h z (List.mem_cons_of_mem c hz))
      exact ⟨d, t2, by rw [List.cons_append, List.dropWhile_cons_of_pos hd]; exact hdrop, hdb⟩
    · refine ⟨c, t ++ ':' :: ys, by rw [List.cons_append, List.dropWhile_cons_of_neg hd], ?_⟩
      intro hc
      have := h c (List.mem_cons_self c t)
      rw [hc] at this
      cases this

lemma tagLookahead_false_allowed (aname ys : List Char) (hne : aname ≠ [])
    (hall : ∀ c ∈ aname, dict_attr_allowed_chars c = true) :
    tagLookahead (aname ++ ':' :: ys) = false := by
  cases aname with
  | nil => exact absurd rfl hne
  | cons c t =>
    obtain ⟨d, t2, hdrop, hdb⟩ := first_nondigit_not_bracket ys (c :: t) hall
    rw [List.cons_append] at hdrop ⊢
    simp only [tagLookahead, hdrop]
    simp [hdb]

lemma tagLookahead_digits (ds : List Char) (hne : ds ≠ [])
    (hdig : ∀ c ∈ ds, c.isDigit = true) : tagLookahead ds = true := by
  cases ds with
  | nil => exact absurd rfl hne
  | cons c t =>
    simp only [tagLookahead]
    rw [dropWhile_all Char.isDigit (c :: t) hdig]
    simp [hdig c (List.mem_cons_self c t)]

lemma dict_attrbyname_substr_hit (dict : List DictAttr) (da : DictAttr)
    (aname rest : List Char) (sep : Char)
    (hall : ∀ c ∈ aname, dict_attr_allowed_chars c = true)
    (hsep : dict_attr_allowed_chars sep = false)
    (hlk : dictLookup dict aname = some da) :
    dict_attrbyname_substr dict (aname ++ sep :: rest) = some (da, sep :: rest) := by
  unfold dict_attrbyname_substr
  rw [takeWhile_append_stop _ aname (sep :: rest) hall
      (by intro y yt hy; cases hy; exact hsep),
    dropWhile_append_stop _ aname (sep :: rest) hall
      (by intro y yt hy; cases hy; exact hsep),
    hlk]

lemma strtolM_digits (ds ys : List Char) (hne : ds ≠ [])
    (hdig : ∀ c ∈ ds, c.isDigit = true)
    (hys : ∀ y (t : List Char), ys = y :: t → y.isDigit = false) :
    strtolM (ds ++ ys) = ((digitsVal ds : Int), ys) := by
  cases ds with
  | nil => exact absurd rfl hne
  | cons c t =>
    have hc : c.isDigit = true := hdig c (List.mem_cons_self c t)
    have hc1 : ¬(c = '-') := by
      intro h
      rw [h] at hc
      cases hc
    have hc2 : ¬(c = '+') := by
      intro h
      rw [h] at hc
      cases hc
    have hcsp : isSpaceC c = false := by
      cases hxx : isSpaceC c
      · rfl
      · unfold isSpaceC at hxx
        simp only [Bool.or_eq_true, beq_iff_eq] at hxx
        rcases hxx with ((((h | h) | h) | h) | h) | h <;> (rw [h] at hc; cases hc)
    have htake : ((c :: t) ++ ys).takeWhile Char.isDigit = c :: t :=
      takeWhile_append_stop _ _ _ hdig hys
    have hdrop : ((c :: t) ++ ys).dropWhile Char.isDigit = ys :=
      dropWhile_append_stop _ _ _ hdig hys
    have hnum : strtolNum (c :: (t ++ ys)) = some ((digitsVal (c :: t) : Int), ys) := by
      simp only [strtolNum, if_neg hc1, if_neg hc2]
      rw [← List.cons_append, htake, hdrop]
      rw [if_neg (List.cons_ne_nil c t)]
    unfold strtolM
    rw [List.cons_append, List.dropWhile_cons_of_neg (by rw [hcsp]; decide), hnum]
    rfl

lemma strtolM_digits_nil (ds : List Char) (hne : ds ≠ [])
    (hdig : ∀ c ∈ ds, c.isDigit = true) :
    strtolM ds = ((digitsVal ds : Int), []) := by
  have h := strtolM_digits ds [] hne hdig (by intro y t hy; cases hy)
  simpa using h

lemma natToDigits_cons_digit (n : Nat) :
    ∃ c t, natToDigits n = c :: t ∧ c.isDigit = true := by
  cases hd : natToDigits n with
  | nil => exact absurd hd (natToDigits_ne_nil n)
  | cons c t =>
    refine ⟨c, t, rfl, ?_⟩
    have := natToDigits_all_digit n c (by rw [hd]; exact List.mem_cons_self c t)
    exact this

lemma fr_substr2int_pair_lists_bracket (s : List Char) (d : pair_lists_t)
    (hb : '[' ∈ s) : fr_substr2int pair_lists d s = d := by
  unfold fr_substr2int
  have hfind : pair_lists.find? (fun e => s.map lowerChar == e.1) = none := by
    rw [List.find?_eq_none]
    intro e he hbeq
    have hmap : s.map lowerChar = e.1 := eq_of_beq hbeq
    have hbl : '[' ∈ s.map lowerChar := List.mem_map.mpr ⟨'[', hb, by decide⟩
    rw [hmap] at hbl
    fin_cases he <;> revert hbl <;> decide
  rw [hfind]

/-! ### C4: tag suffix parsing -/

lemma not_mem_append {α : Type} (a : α) (xs ys : List α) (hx : a ∉ xs) (hy : a ∉ ys) :
    a ∉ xs ++ ys := by
  intro h
  rcases List.mem_append.mp h with h | h
  · exact hx h
  · exact hy h

lemma head_not_amp (aname rest : List Char) (hne : aname ≠ [])
    (hall : ∀ c ∈ aname, dict_attr_allowed_chars c = true) :
    ¬ ((aname ++ rest).head? = some '&') := by
  cases aname with
  | nil => exact absurd rfl hne
  | cons c t =>
    simp only [List.cons_append, List.head?_cons]
    intro h
    have hc : c = '&' := by injection h
    have := hall c (List.mem_cons_self c t)
    rw [hc] at this
    cases this

lemma colon_not_mem_allowed (aname : List Char)
    (hall : ∀ c ∈ aname, dict_attr_allowed_chars c = true) : ':' ∉ aname := by
  intro h
  have := hall ':' h
  cases this

lemma digits_no_dot (ds : List Char) (hdig : ∀ c ∈ ds, c.isDigit = true) : '.' ∉ ds := by
  intro h
  have := hdig '.' h
  cases this

lemma radius_list_name_lookahead_fire (pre post : List Char) (d : pair_lists_t)
    (hcol : ':' ∉ pre) (hla : tagLookahead post = true) :
    radius_list_name (pre ++ ':' :: post) d = (d, pre ++ ':' :: post) := by
  unfold radius_list_name
  rw [splitAtChar_append ':' pre post hcol]
  simp [hla]

lemma radius_list_name_unmatched (pre post : List Char) (d : pair_lists_t)
    (hcol : ':' ∉ pre) (hla : tagLookahead post = false)
    (hlook : fr_substr2int pair_lists pair_lists_t.unknown pre = pair_lists_t.unknown) :
    radius_list_name (pre ++ ':' :: post) d
      = (pair_lists_t.unknown, pre ++ ':' :: post) := by
  unfold radius_list_name
  rw [splitAtChar_append ':' pre post hcol]
  simp [hla, hlook]

/-- C4 (amended): for `name:N` with a known tag-capable attribute,
0 ≤ N ≤ 31 parses with tag N and full consumption; N = 32 is a grammar
error whose offset is the tag position (just after the colon); `name:-1`
is NOT reported at the tag position: the `-` defeats the digit
lookahead, the colon is treated as a list separator, and the reference
is rejected as an invalid list qualifier at offset 0. -/
theorem tag_suffix_parsing (dict : List DictAttr) (da : DictAttr) (t : Nat)
    (hlk : dictLookup dict da.name = some da)
    (htag : da.has_tag = true)
    (hall : ∀ c ∈ da.name, dict_attr_allowed_chars c = true)
    (hne : da.name ≠ [])
    (hdot : '.' ∉ da.name)
    (hnolist : fr_substr2int pair_lists pair_lists_t.unknown da.name
      = pair_lists_t.unknown) :
    (t ≤ 31 →
      tmpl_from_attr_substr dict (da.name ++ ':' :: natToDigits t)
          request_refs_t.current pair_lists_t.request
        = .ok { type := .attr, name := da.name ++ ':' :: natToDigits t,
                len := (da.name ++ ':' :: natToDigits t).length,
                attr := { request := .current, list := .request, da := some da,
                          tag := (t : Int), num := NUM_ANY, unknown_name := [] },
                dataType := none, dataValue := none }
            (da.name ++ ':' :: natToDigits t).length)
    ∧ (t = 32 →
      tmpl_from_attr_substr dict (da.name ++ ':' :: natToDigits t)
          request_refs_t.current pair_lists_t.request
        = .err (da.name.length + 1))
    ∧ (tmpl_from_attr_substr dict (da.name ++ [':', '-', '1'])
          request_refs_t.current pair_lists_t.request
        = .err 0) := by
  have hcol : ':' ∉ da.name := colon_not_mem_allowed da.name hall
  have hdig := natToDigits_all_digit t
  have hdsne := natToDigits_ne_nil t
  have hSdot : '.' ∉ da.name ++ ':' :: natToDigits t := by
    refine not_mem_append _ _ _ hdot ?_
    intro hm
    rcases List.mem_cons.mp hm with h | h
    · exact absurd h (by decide)
    · exact digits_no_dot (natToDigits t) hdig h
  have hSne : da.name ++ ':' :: natToDigits t ≠ [] := by
    intro h
    have h2 := (List.append_eq_nil.mp h).2
    cases h2
  refine ⟨?_, ?_, ?_⟩
  · intro ht31
    have h31 : ¬(((t : Int) > 31) ∨ ((t : Int) < 0)) := by omega
    unfold tmpl_from_attr_substr
    simp only [if_neg (head_not_amp da.name (':' :: natToDigits t) hne hall),
      radius_request_name_nodot _ _ hSdot,
      radius_list_name_lookahead_fire da.name (natToDigits t) pair_lists_t.request hcol
        (tagLookahead_digits (natToDigits t) hdsne hdig),
      dict_attrbyname_substr_hit dict da da.name (natToDigits t) ':' hall (by decide) hlk,
      tmpl_parse_tag, tmpl_parse_idx, tmpl_finish, htag, hSne,
      List.head?_cons, List.tail_cons,
      strtolM_digits_nil (natToDigits t) hdsne hdig, digitsVal_natToDigits]
    simp [h31, TmplAttr.zero]
    exact ht31
  · intro ht32
    subst ht32
    unfold tmpl_from_attr_substr
    simp only [if_neg (head_not_amp da.name (':' :: natToDigits 32) hne hall),
      radius_request_name_nodot _ _ hSdot,
      radius_list_name_lookahead_fire da.name (natToDigits 32) pair_lists_t.request hcol
        (tagLookahead_digits (natToDigits 32) hdsne hdig),
      dict_attrbyname_substr_hit dict da da.name (natToDigits 32) ':' hall (by decide) hlk,
      tmpl_parse_tag, htag,
      List.head?_cons, List.tail_cons,
      strtolM_digits_nil (natToDigits 32) hdsne hdig, digitsVal_natToDigits]
    simp only [show ((31 : Int) < ((32 : Nat) : Int) ∨ ((32 : Nat) : Int) < 0) = True by
      simp, if_true]
    simp [hSne]
    omega
  · have hS2dot : '.' ∉ da.name ++ [':', '-', '1'] := by
      refine not_mem_append _ _ _ hdot (by decide)
    unfold tmpl_from_attr_substr
    simp only [if_neg (head_not_amp da.name [':', '-', '1'] hne hall),
      radius_request_name_nodot _ _ hS2dot]
    have hlu : radius_list_name (da.name ++ [':', '-', '1']) pair_lists_t.request
        = (pair_lists_t.unknown, da.name ++ [':', '-', '1']) := by
      have h := radius_list_name_unmatched da.name ['-', '1'] pair_lists_t.request hcol
        (by decide) hnolist
      exact h
    simp [hlu]

/-- C4 counterexample: `Tunnel-Type:-1` (a known tag-capable attribute
with tag -1) is not rejected at the tag position (offset 12): the parse
fails with offset 0, as an invalid list qualifier. -/
theorem tag_suffix_parsing_counterexample :
    tmpl_from_attr_substr sampleDict ("Tunnel-Type:-1".toList)
        request_refs_t.current pair_lists_t.request = .err 0
    ∧ (0 : Nat) ≠ 12 := by
  constructor
  · decide
  · decide

/-- Witness for C4 at the concrete catalogue: `Tunnel-Type:5` parses
with tag 5. -/
theorem tag_suffix_parsing_witness :
    tmpl_from_attr_substr sampleDict (tunnelType.name ++ ':' :: natToDigits 5)
        request_refs_t.current pair_lists_t.request
      = .ok { type := .attr, name := tunnelType.name ++ ':' :: natToDigits 5,
              len := (tunnelType.name ++ ':' :: natToDigits 5).length,
              attr := { request := .current, list := .request, da := some tunnelType,
                        tag := ((5 : Nat) : Int), num := NUM_ANY, unknown_name := [] },
              dataType := none, dataValue := none }
          (tunnelType.name ++ ':' :: natToDigits 5).length :=
  (tag_suffix_parsing sampleDict tunnelType 5 (by decide) (by decide) (by decide)
    (by decide) (by decide) (by decide)).1 (by decide)

/-! ### C5: instance suffix parsing -/

lemma append_ne_of_left_ne_nil {α : Type} (xs ys : List α) (h : xs ≠ []) :
    xs ++ ys ≠ ys := by
  intro heq
  have hlen := congrArg List.length heq
  simp only [List.length_append] at hlen
  have : xs.length = 0 := by omega
  exact h (List.length_eq_zero.mp this)

lemma radius_list_name_nocolon_bracket (S : List Char) (d : pair_lists_t)
    (hcol : ':' ∉ S) (hb : '[' ∈ S) : radius_list_name S d = (d, S) := by
  unfold radius_list_name
  rw [splitAtChar_none ':' S hcol]
  simp [fr_substr2int_pair_lists_bracket S _ hb]

lemma natToDigits_head_ne_star (k : Nat) (ys : List Char) :
    ¬((natToDigits k ++ ys).head? = some '*') := by
  obtain ⟨d0, t0, hdk, hd0⟩ := natToDigits_cons_digit k
  rw [hdk, List.cons_append, List.head?_cons]
  intro h
  have : d0 = '*' := by injection h
  rw [this] at hd0
  cases hd0

/-- C5 (amended): for `name[K]` with a known attribute, 0 ≤ K ≤ 1000
parses with instance K; K = 1001 is a grammar error at the index
position; `name[*]` parses with the "all instances" index; bracket
content that does not start with a decimal digit, a sign, white-space,
or `*` is a grammar error at the index position.  (The index is read
with `strtol`, which skips leading white-space and accepts an optional
sign, so content such as `+5` or ` 5` is accepted with instance 5 —
not every non-digit content is an error; see the counterexample.) -/
theorem index_suffix_parsing (dict : List DictAttr) (da : DictAttr) (k : Nat)
    (hlk : dictLookup dict da.name = some da)
    (hall : ∀ c ∈ da.name, dict_attr_allowed_chars c = true)
    (hne : da.name ≠ [])
    (hdot : '.' ∉ da.name) :
    (k ≤ 1000 →
      tmpl_from_attr_substr dict (da.name ++ '[' :: (natToDigits k ++ [']']))
          request_refs_t.current pair_lists_t.request
        = .ok { type := .attr, name := da.name ++ '[' :: (natToDigits k ++ [']']),
                len := (da.name ++ '[' :: (natToDigits k ++ [']'])).length,
                attr := { request := .current, list := .request, da := some da,
                          tag := TAG_ANY, num := (k : Int), unknown_name := [] },
                dataType := none, dataValue := none }
            (da.name ++ '[' :: (natToDigits k ++ [']'])).length)
    ∧ (k = 1001 →
      tmpl_from_attr_substr dict (da.name ++ '[' :: (natToDigits k ++ [']']))
          request_refs_t.current pair_lists_t.request
        = .err (da.name.length + 1))
    ∧ (tmpl_from_attr_substr dict (da.name ++ ['[', '*', ']'])
          request_refs_t.current pair_lists_t.request
        = .ok { type := .attr, name := da.name ++ ['[', '*', ']'],
                len := (da.name ++ ['[', '*', ']']).length,
                attr := { request := .current, list := .request, da := some da,
                          tag := TAG_ANY, num := NUM_ALL, unknown_name := [] },
                dataType := none, dataValue := none }
            (da.name ++ ['[', '*', ']']).length)
    ∧ (∀ (c : Char) (rest : List Char), c.isDigit = false → c ≠ '*' → c ≠ '+' → c ≠ '-' →
        isSpaceC c = false →
        ':' ∉ c :: rest → '.' ∉ c :: rest →
        tmpl_from_attr_substr dict (da.name ++ '[' :: c :: rest)
            request_refs_t.current pair_lists_t.request
          = .err (da.name.length + 1)) := by
  have hcol : ':' ∉ da.name := colon_not_mem_allowed da.name hall
  have hdig := natToDigits_all_digit k
  have hdsne := natToDigits_ne_nil k
  refine ⟨?_, ?_, ?_, ?_⟩
  · intro hk1000
    have hSdot : '.' ∉ da.name ++ '[' :: (natToDigits k ++ [']']) := by
      refine not_mem_append _ _ _ hdot ?_
      intro hm
      rcases List.mem_cons.mp hm with h | h
      · exact absurd h (by decide)
      · rcases List.mem_append.mp h with h | h
        · exact digits_no_dot (natToDigits k) hdig h
        · rcases List.mem_cons.mp h with h | h
          · exact absurd h (by decide)
          · cases h
    have hScol : ':' ∉ da.name ++ '[' :: (natToDigits k ++ [']']) := by
      refine not_mem_append _ _ _ hcol ?_
      intro hm
      rcases List.mem_cons.mp hm with h | h
      · exact absurd h (by decide)
      · rcases List.mem_append.mp h with h | h
        · have := hdig ':' h
          cases this
        · rcases List.mem_cons.mp h with h | h
          · exact absurd h (by decide)
          · cases h
    have hSb : '[' ∈ da.name ++ '[' :: (natToDigits k ++ [']']) :=
      List.mem_append.mpr (Or.inr (List.mem_cons_self _ _))
    have hrk : ¬(((k : Int) > 1000) ∨ ((k : Int) < 0)) := by omega
    have hr2 : ¬(([']'] : List Char) = natToDigits k ++ [']']) := by
      intro h
      exact append_ne_of_left_ne_nil (natToDigits k) [']'] hdsne h.symm
    unfold tmpl_from_attr_substr
    simp only [if_neg (head_not_amp da.name ('[' :: (natToDigits k ++ [']'])) hne hall),
      radius_request_name_nodot _ _ hSdot,
      radius_list_name_nocolon_bracket _ pair_lists_t.request hScol hSb,
      dict_attrbyname_substr_hit dict da da.name (natToDigits k ++ [']']) '[' hall
        (by decide) hlk,
      tmpl_parse_tag, tmpl_parse_idx, tmpl_finish,
      List.head?_cons, List.tail_cons,
      if_neg (natToDigits_head_ne_star k [']']),
      strtolM_digits (natToDigits k) [']'] hdsne hdig
        (by intro y yt hy; injection hy with h1 h2; rw [← h1]; decide),
      digitsVal_natToDigits, if_neg hr2]
    simp [hrk, TmplAttr.zero]
    exact hk1000
  · intro hk
    subst hk
    have hSdot : '.' ∉ da.name ++ '[' :: (natToDigits 1001 ++ [']']) := by
      refine not_mem_append _ _ _ hdot ?_
      intro hm
      rcases List.mem_cons.mp hm with h | h
      · exact absurd h (by decide)
      · rcases List.mem_append.mp h with h | h
        · exact digits_no_dot (natToDigits 1001) hdig h
        · rcases List.mem_cons.mp h with h | h
          · exact absurd h (by decide)
          · cases h
    have hScol : ':' ∉ da.name ++ '[' :: (natToDigits 1001 ++ [']']) := by
      refine not_mem_append _ _ _ hcol ?_
      intro hm
      rcases List.mem_cons.mp hm with h | h
      · exact absurd h (by decide)
      · rcases List.mem_append.mp h with h | h
        · have := hdig ':' h
          cases this
        · rcases List.mem_cons.mp h with h | h
          · exact absurd h (by decide)
          · cases h
    have hSb : '[' ∈ da.name ++ '[' :: (natToDigits 1001 ++ [']']) :=
      List.mem_append.mpr (Or.inr (List.mem_cons_self _ _))
    have hr2 : ¬(([']'] : List Char) = natToDigits 1001 ++ [']']) := by
      intro h
      exact append_ne_of_left_ne_nil (natToDigits 1001) [']'] hdsne h.symm
    unfold tmpl_from_attr_substr
    simp only [if_neg (head_not_amp da.name ('[' :: (natToDigits 1001 ++ [']'])) hne hall),
      radius_request_name_nodot _ _ hSdot,
      radius_list_name_nocolon_bracket _ pair_lists_t.request hScol hSb,
      dict_attrbyname_substr_hit dict da da.name (natToDigits 1001 ++ [']']) '[' hall
        (by decide) hlk,
      tmpl_parse_tag, tmpl_parse_idx, tmpl_finish,
      List.head?_cons, List.tail_cons,
      if_neg (natToDigits_head_ne_star 1001 [']']),
      strtolM_digits (natToDigits 1001) [']'] hdsne hdig
        (by intro y yt hy; injection hy with h1 h2; rw [← h1]; decide),
      digitsVal_natToDigits, if_neg hr2]
    simp only [show ((1000 : Int) < ((1001 : Nat) : Int) ∨ ((1001 : Nat) : Int) < 0) = True by
      simp, if_true]
    have hlen : (natToDigits 1001).length = 4 := by decide
    simp [hlen]
  · have hSdot : '.' ∉ da.name ++ ['[', '*', ']'] :=
      not_mem_append _ _ _ hdot (by decide)
    have hScol : ':' ∉ da.name ++ ['[', '*', ']'] :=
      not_mem_append _ _ _ hcol (by decide)
    have hSb : '[' ∈ da.name ++ ['[', '*', ']'] :=
      List.mem_append.mpr (Or.inr (List.mem_cons_self _ _))
    unfold tmpl_from_attr_substr
    simp only [if_neg (head_not_amp da.name ['[', '*', ']'] hne hall),
      radius_request_name_nodot _ _ hSdot,
      radius_list_name_nocolon_bracket _ pair_lists_t.request hScol hSb,
      dict_attrbyname_substr_hit dict da da.name ['*', ']'] '[' hall (by decide) hlk,
      tmpl_parse_tag, tmpl_parse_idx, tmpl_finish,
      List.head?_cons, List.tail_cons]
    simp [TmplAttr.zero]
  · intro c rest hcd hcs hcp hcm hcw hrcol hrdot
    have hSdot : '.' ∉ da.name ++ '[' :: c :: rest := by
      refine not_mem_append _ _ _ hdot ?_
      intro hm
      rcases List.mem_cons.mp hm with h | h
      · exact absurd h (by decide)
      · exact hrdot h
    have hScol : ':' ∉ da.name ++ '[' :: c :: rest := by
      refine not_mem_append _ _ _ hcol ?_
      intro hm
      rcases List.mem_cons.mp hm with h | h
      · exact absurd h (by decide)
      · exact hrcol h
    have hSb : '[' ∈ da.name ++ '[' :: c :: rest :=
      List.mem_append.mpr (Or.inr (List.mem_cons_self _ _))
    have hstar : ¬((c :: rest).head? = some '*') := by
      rw [List.head?_cons]
      intro h
      exact hcs (by injection h)
    have hstrtol : strtolM (c :: rest) = (0, c :: rest) := by
      have hnum : strtolNum (c :: rest) = none := by
        simp only [strtolNum, if_neg hcm, if_neg hcp]
        rw [List.takeWhile_cons_of_neg (by rw [hcd]; decide)]
        simp
      unfold strtolM
      rw [List.dropWhile_cons_of_neg (by rw [hcw]; decide), hnum]
      rfl
    unfold tmpl_from_attr_substr
    simp only [if_neg (head_not_amp da.name ('[' :: c :: rest) hne hall),
      radius_request_name_nodot _ _ hSdot,
      radius_list_name_nocolon_bracket _ pair_lists_t.request hScol hSb,
      dict_attrbyname_substr_hit dict da da.name (c :: rest) '[' hall (by decide) hlk,
      tmpl_parse_tag, tmpl_parse_idx,
      List.head?_cons, List.tail_cons,
      if_neg hstar, hstrtol]
    simp [hcs]
    omega

/-- C5 counterexample: the bracket contents `+5` and ` 5` are neither
`<digits>` nor `*`, yet neither `Tunnel-Type[+5]` nor `Tunnel-Type[ 5]`
is a grammar error: both parse successfully with instance 5 (`strtol`
skips leading white-space and accepts an optional sign). -/
theorem index_suffix_parsing_counterexample :
    (tmpl_from_attr_substr sampleDict ("Tunnel-Type[+5]".toList)
        request_refs_t.current pair_lists_t.request).isErr = false
    ∧ tmpl_from_attr_substr sampleDict ("Tunnel-Type[+5]".toList)
        request_refs_t.current pair_lists_t.request
      = .ok { type := .attr, name := "Tunnel-Type[+5]".toList, len := 15,
              attr := { request := .current, list := .request, da := some tunnelType,
                        tag := TAG_ANY, num := 5, unknown_name := [] },
              dataType := none, dataValue := none } 15
    ∧ tmpl_from_attr_substr sampleDict ("Tunnel-Type[ 5]".toList)
        request_refs_t.current pair_lists_t.request
      = .ok { type := .attr, name := "Tunnel-Type[ 5]".toList, len := 15,
              attr := { request := .current, list := .request, da := some tunnelType,
                        tag := TAG_ANY, num := 5, unknown_name := [] },
              dataType := none, dataValue := none } 15 := by
  refine ⟨?_, ?_, ?_⟩
  · decide
  · decide
  · decide

/-- Witness for C5 at the concrete catalogue: `Tunnel-Type[3]` parses
with instance 3, and `Tunnel-Type[x]` (bracket content starting with
none of digit, sign, white-space, `*`) is a grammar error at the index
position. -/
theorem index_suffix_parsing_witness :
    (tmpl_from_attr_substr sampleDict (tunnelType.name ++ '[' :: (natToDigits 3 ++ [']']))
        request_refs_t.current pair_lists_t.request
      = .ok { type := .attr, name := tunnelType.name ++ '[' :: (natToDigits 3 ++ [']']),
              len := (tunnelType.name ++ '[' :: (natToDigits 3 ++ [']'])).length,
              attr := { request := .current, list := .request, da := some tunnelType,
                        tag := TAG_ANY, num := ((3 : Nat) : Int), unknown_name := [] },
              dataType := none, dataValue := none }
          (tunnelType.name ++ '[' :: (natToDigits 3 ++ [']'])).length)
    ∧ tmpl_from_attr_substr sampleDict (tunnelType.name ++ '[' :: 'x' :: [']'])
        request_refs_t.current pair_lists_t.request
      = .err (tunnelType.name.length + 1) :=
  ⟨(index_suffix_parsing sampleDict tunnelType 3 (by decide) (by decide) (by decide)
      (by decide)).1 (by decide),
    (index_suffix_parsing sampleDict tunnelType 3 (by decide) (by decide) (by decide)
      (by decide)).2.2.2 'x' [']'] (by decide) (by decide) (by decide) (by decide)
      (by decide) (by decide) (by decide)⟩

/-! ### C7: error returns and byte offsets -/

lemma length_takeWhile_le (p : Char → Bool) : ∀ l : List Char,
    (l.takeWhile p).length ≤ l.length := by
  intro l
  induction l with
  | nil => simp
  | cons x xs ih =>
    by_cases hx : p x
    · rw [List.takeWhile_cons_of_pos hx]
      simp only [List.length_cons]
      omega
    · rw [List.takeWhile_cons_of_neg hx]
      simp

lemma radius_request_name_len (p : List Char) (d : request_refs_t) :
    (radius_request_name p d).2.length ≤ p.length := by
  unfold radius_request_name
  cases hsp : splitAtChar '.' p with
  | none => simp
  | some pq =>
    rcases pq with ⟨pre, post⟩
    have := splitAtChar_post_len '.' p pre post hsp
    by_cases hr : fr_substr2int request_refs request_refs_t.unknown pre
        ≠ request_refs_t.unknown
    · simp only [if_pos hr]
      omega
    · simp [if_neg hr]

lemma radius_list_name_len (p : List Char) (d : pair_lists_t) :
    (radius_list_name p d).2.length ≤ p.length := by
  unfold radius_list_name
  cases hsp : splitAtChar ':' p with
  | none =>
    by_cases hr : fr_substr2int pair_lists pair_lists_t.unknown p ≠ pair_lists_t.unknown
    · simp [if_pos hr]
    · simp [if_neg hr]
  | some pq =>
    rcases pq with ⟨pre, post⟩
    have := splitAtChar_post_len ':' p pre post hsp
    by_cases hla : tagLookahead post
    · simp [if_pos hla]
    · simp only [if_neg hla]
      by_cases hr : fr_substr2int pair_lists pair_lists_t.unknown pre ≠ pair_lists_t.unknown
      · simp only [if_pos hr]
        omega
      · simp [if_neg hr]

lemma tmpl_parse_idx_err_le (name : List Char) (n : Nat) (ty : tmpl_type_t)
    (a : TmplAttr) (p : List Char) (off : Nat)
    (h : tmpl_parse_idx name n ty a p = .err off) : off ≤ n := by
  unfold tmpl_parse_idx tmpl_finish at h
  simp only [] at h
  by_cases h0 : p = []
  · rw [if_pos h0] at h
    cases h
  · rw [if_neg h0] at h
    by_cases hb : p.head? = some '['
    · rw [if_pos hb] at h
      by_cases hs : p.tail.head? = some '*'
      · rw [if_pos hs] at h
        by_cases hr : p.tail.tail.head? = some ']'
        · rw [if_pos hr] at h
          cases h
        · rw [if_neg hr] at h
          cases h
          exact Nat.sub_le n _
      · rw [if_neg hs] at h
        by_cases hq : (strtolM p.tail).2 = p.tail
        · rw [if_pos hq] at h
          cases h
          exact Nat.sub_le n _
        · rw [if_neg hq] at h
          by_cases hrange : (strtolM p.tail).1 > 1000 ∨ (strtolM p.tail).1 < 0
          · rw [if_pos hrange] at h
            cases h
            exact Nat.sub_le n _
          · rw [if_neg hrange] at h
            by_cases hcl : (strtolM p.tail).2.head? = some ']'
            · rw [if_pos hcl] at h
              cases h
            · rw [if_neg hcl] at h
              cases h
              exact Nat.sub_le n _
    · rw [if_neg hb] at h
      cases h

lemma tmpl_parse_tag_err_le (name : List Char) (n : Nat) (a : TmplAttr) (da : DictAttr)
    (p : List Char) (off : Nat)
    (h : tmpl_parse_tag name n a da p = .err off) : off ≤ n := by
  unfold tmpl_parse_tag at h
  simp only [] at h
  by_cases h0 : p.head? = some ':'
  · rw [if_pos h0] at h
    by_cases h1 : da.has_tag = false
    · rw [if_pos h1] at h
      cases h
      exact Nat.sub_le n _
    · rw [if_neg h1] at h
      by_cases hrange : (strtolM p.tail).1 > 31 ∨ (strtolM p.tail).1 < 0
      · rw [if_pos hrange] at h
        cases h
        exact Nat.sub_le n _
      · rw [if_neg hrange] at h
        exact tmpl_parse_idx_err_le _ _ _ _ _ _ h
  · rw [if_neg h0] at h
    exact tmpl_parse_idx_err_le _ _ _ _ _ _ h

/-- C7 (amended): on every failing parse, the value
`tmpl_from_attr_substr` returns to its C callers is non-positive (not
always strictly negative: a qualifier that fails at the very start of
the input reports offset 0), and its absolute value is the byte offset
from the start of the input at which parsing stopped, which never
exceeds the input length. -/
theorem parse_error_offset (dict : List DictAttr) (s : List Char)
    (rdef : request_refs_t) (ldef : pair_lists_t) (off : Nat)
    (h : tmpl_from_attr_substr dict s rdef ldef = .err off) :
    (ParseRes.err off).ret ≤ 0
    ∧ (ParseRes.err off).ret.natAbs = off
    ∧ off ≤ s.length := by
  refine ⟨by simp [ParseRes.ret], by simp [ParseRes.ret], ?_⟩
  unfold tmpl_from_attr_substr at h
  set fa := if s.head? = some '&' then (true, s.tail) else (false, s) with hfa
  have hfalen : fa.2.length ≤ s.length := by
    rw [hfa]
    by_cases hh : s.head? = some '&'
    · simp only [if_pos hh]
      cases s <;> simp
    · simp [if_neg hh]
  set rq := radius_request_name fa.2 rdef with hrq
  have hrqlen : rq.2.length ≤ s.length :=
    Nat.le_trans (radius_request_name_len fa.2 rdef) hfalen
  by_cases h1 : rq.1 = request_refs_t.unknown
  · rw [if_pos h1] at h
    cases h
    exact Nat.sub_le _ _
  · rw [if_neg h1] at h
    set rl := radius_list_name rq.2 ldef with hrl
    have hrllen : rl.2.length ≤ s.length :=
      Nat.le_trans (radius_list_name_len rq.2 ldef) hrqlen
    by_cases h2 : rl.1 = pair_lists_t.unknown
    · rw [if_pos h2] at h
      cases h
      exact Nat.sub_le _ _
    · rw [if_neg h2] at h
      by_cases h3 : rl.2 = []
      · rw [if_pos h3] at h
        cases h
      · rw [if_neg h3] at h
        cases hdict : dict_attrbyname_substr dict rl.2 with
        | some dap =>
          rw [hdict] at h
          exact tmpl_parse_tag_err_le _ _ _ _ _ _ h
        | none =>
          rw [hdict] at h
          cases hunk : dict_unknown_from_substr rl.2 with
          | some uap =>
            rw [hunk] at h
            exact tmpl_parse_idx_err_le _ _ _ _ _ _ h
          | none =>
            rw [hunk] at h
            by_cases h4 : fa.1 = false
            · simp only [if_pos h4] at h
              cases h
              exact Nat.sub_le _ _
            · simp only [if_neg h4] at h
              by_cases h5 : fugly_name_size ≤ (rl.2.takeWhile dict_attr_allowed_chars).length
              · simp only [if_pos h5] at h
                cases h
                have htw := length_takeWhile_le dict_attr_allowed_chars rl.2
                have hfs : fugly_name_size = 128 := rfl
                omega
              · simp only [if_neg h5] at h
                exact tmpl_parse_idx_err_le _ _ _ _ _ _ h

/-- C7 counterexample: for the input `foo:bar` (an invalid list
qualifier at the very start), the parse fails but the returned value is
0, not strictly negative. -/
theorem parse_error_offset_counterexample :
    tmpl_from_attr_substr sampleDict ("foo:bar".toList)
        request_refs_t.current pair_lists_t.request = .err 0
    ∧ ¬((tmpl_from_attr_substr sampleDict ("foo:bar".toList)
        request_refs_t.current pair_lists_t.request).ret < 0) := by
  constructor
  · decide
  · decide

/-- Witness for C7 at a concrete failing input: `&Tunnel-Type:99` fails
at offset 13 (the tag position), the returned value is non-positive and
its absolute value is 13, within the 15-byte input. -/
theorem parse_error_offset_witness :
    tmpl_from_attr_substr sampleDict ("&Tunnel-Type:99".toList)
        request_refs_t.current pair_lists_t.request = .err 13
    ∧ ((ParseRes.err 13).ret ≤ 0
       ∧ (ParseRes.err 13).ret.natAbs = 13
       ∧ 13 ≤ ("&Tunnel-Type:99".toList).length) :=
  ⟨by decide,
   parse_error_offset sampleDict ("&Tunnel-Type:99".toList)
     request_refs_t.current pair_lists_t.request 13 (by decide)⟩

/-! ### C1: canonical attribute-reference round trip -/

lemma intToChars_natCast (n : Nat) : intToChars ((n : Nat) : Int) = natToDigits n := by
  unfold intToChars
  rw [if_neg (by omega : ¬(((n : Nat) : Int) < 0))]
  simp

lemma parse_canon_body (dict : List DictAttr) (da : DictAttr)
    (scope : request_refs_t) (lst : pair_lists_t) (tag num : Nat)
    (rr ln : List Char)
    (hrrdot : '.' ∉ rr)
    (hrrlook : fr_substr2int request_refs request_refs_t.unknown rr = scope)
    (hscne : scope ≠ request_refs_t.unknown)
    (hlncol : ':' ∉ ln)
    (hlnlook : fr_substr2int pair_lists pair_lists_t.unknown ln = lst)
    (hlstne : lst ≠ pair_lists_t.unknown)
    (hlk : dictLookup dict da.name = some da)
    (htag : da.has_tag = true)
    (hall : ∀ c ∈ da.name, dict_attr_allowed_chars c = true)
    (hne : da.name ≠ [])
    (htag31 : tag ≤ 31) (hnum1000 : num ≤ 1000) :
    tmpl_from_attr_substr dict
        ('&' :: (rr ++ '.' :: (ln ++ ':' :: (da.name ++ ':' ::
          (natToDigits tag ++ '[' :: (natToDigits num ++ [']']))))))
        request_refs_t.current pair_lists_t.request
      = .ok { type := .attr,
              name := '&' :: (rr ++ '.' :: (ln ++ ':' :: (da.name ++ ':' ::
                (natToDigits tag ++ '[' :: (natToDigits num ++ [']']))))),
              len := ('&' :: (rr ++ '.' :: (ln ++ ':' :: (da.name ++ ':' ::
                (natToDigits tag ++ '[' :: (natToDigits num ++ [']'])))))).length,
              attr := { request := scope, list := lst, da := some da,
                        tag := ((tag : Nat) : Int), num := ((num : Nat) : Int),
                        unknown_name := [] },
              dataType := none, dataValue := none }
          ('&' :: (rr ++ '.' :: (ln ++ ':' :: (da.name ++ ':' ::
            (natToDigits tag ++ '[' :: (natToDigits num ++ [']'])))))).length := by
  have hdigT := natToDigits_all_digit tag
  have hdigN := natToDigits_all_digit num
  have hdsneT := natToDigits_ne_nil tag
  have hdsneN := natToDigits_ne_nil num
  have hT31 : ¬(((tag : Int) > 31) ∨ ((tag : Int) < 0)) := by omega
  have hN1000 : ¬(((num : Int) > 1000) ∨ ((num : Int) < 0)) := by omega
  have hr2 : ¬(([']'] : List Char) = natToDigits num ++ [']']) := by
    intro h
    exact append_ne_of_left_ne_nil (natToDigits num) [']'] hdsneN h.symm
  have hTailNe : da.name ++ ':' ::
      (natToDigits tag ++ '[' :: (natToDigits num ++ [']'])) ≠ [] := by
    intro h
    have h2 := (List.append_eq_nil.mp h).2
    cases h2
  have e1 : radius_request_name
      (rr ++ '.' :: (ln ++ ':' :: (da.name ++ ':' ::
        (natToDigits tag ++ '[' :: (natToDigits num ++ [']'])))))
      request_refs_t.current
      = (scope, ln ++ ':' :: (da.name ++ ':' ::
          (natToDigits tag ++ '[' :: (natToDigits num ++ [']'])))) :=
    radius_request_name_known rr _ request_refs_t.current scope hrrdot hrrlook hscne
  have e2 : radius_list_name
      (ln ++ ':' :: (da.name ++ ':' ::
        (natToDigits tag ++ '[' :: (natToDigits num ++ [']']))))
      pair_lists_t.request
      = (lst, da.name ++ ':' ::
          (natToDigits tag ++ '[' :: (natToDigits num ++ [']']))) :=
    radius_list_name_known ln _ pair_lists_t.request lst hlncol
      (tagLookahead_false_allowed da.name _ hne hall) hlnlook hlstne
  have e3 : dict_attrbyname_substr dict
      (da.name ++ ':' :: (natToDigits tag ++ '[' :: (natToDigits num ++ [']'])))
      = some (da, ':' :: (natToDigits tag ++ '[' :: (natToDigits num ++ [']']))) :=
    dict_attrbyname_substr_hit dict da da.name _ ':' hall (by decide) hlk
  have e4 : strtolM (natToDigits tag ++ '[' :: (natToDigits num ++ [']']))
      = (((digitsVal (natToDigits tag)) : Int), '[' :: (natToDigits num ++ [']'])) :=
    strtolM_digits (natToDigits tag) _ hdsneT hdigT
      (by intro y yt hy; injection hy with y1 y2; rw [← y1]; decide)
  have e5 : strtolM (natToDigits num ++ [']'])
      = (((digitsVal (natToDigits num)) : Int), [']']) :=
    strtolM_digits (natToDigits num) _ hdsneN hdigN
      (by intro y yt hy; injection hy with y1 y2; rw [← y1]; decide)
  unfold tmpl_from_attr_substr
  simp only [List.head?_cons, Option.some.injEq, List.tail_cons, if_true,
    eq_self_iff_true, e1, e2, e3,
    tmpl_parse_tag, tmpl_parse_idx, tmpl_finish, htag, hTailNe, hscne, hlstne,
    e4, e5, digitsVal_natToDigits, if_neg (natToDigits_head_ne_star num [']']),
    if_neg hr2]
  simp [hT31, hN1000, hscne, hlstne, TmplAttr.zero]
  rw [if_neg (show ¬(31 < tag ∨ ((tag : Nat) : Int) < 0) by omega),
    if_neg (show ¬(1000 < num ∨ ((num : Nat) : Int) < 0) by omega)]

lemma prints_canon (da : DictAttr) (scope : request_refs_t) (lst : pair_lists_t)
    (tag num : Nat) (S : List Char)
    (hsc : scope ≠ request_refs_t.current) :
    tmpl_prints { type := .attr, name := S, len := S.length,
                  attr := { request := scope, list := lst, da := some da,
                            tag := ((tag : Nat) : Int), num := ((num : Nat) : Int),
                            unknown_name := [] },
                  dataType := none, dataValue := none }
      = canonAttrRef scope lst da.name tag num := by
  have hT : ¬(((tag : Nat) : Int) = TAG_ANY) := by
    simp only [TAG_ANY]
    omega
  have hN : ¬(((num : Nat) : Int) = NUM_ANY) := by
    simp only [NUM_ANY]
    omega
  unfold tmpl_prints canonAttrRef
  simp only [if_neg hsc, Ne, hT, hN, not_false_iff, if_true, if_pos, intToChars_natCast]
  simp [List.append_assoc]

/-- C1: for every canonical attribute-reference string with explicit
(non-Current) request scope, canonical list name, tag 0-31 and instance
index 0-1000 over a known tag-capable attribute, `tmpl_from_attr_substr`
succeeds, consuming the whole string, and `tmpl_prints` on the resulting
template reproduces the string exactly: leading `&`, then
`<request-ref>.<list-name>:`, the attribute name, `:<tag>` and
`[<index>]`. -/
theorem tmpl_attr_roundtrip (dict : List DictAttr) (da : DictAttr)
    (scope : request_refs_t) (lst : pair_lists_t) (tag num : Nat)
    (hlk : dictLookup dict da.name = some da)
    (htag : da.has_tag = true)
    (hall : ∀ c ∈ da.name, dict_attr_allowed_chars c = true)
    (hne : da.name ≠ [])
    (htag31 : tag ≤ 31)
    (hnum1000 : num ≤ 1000)
    (hscope : scope = request_refs_t.outer ∨ scope = request_refs_t.parent)
    (hlst : lst ≠ pair_lists_t.unknown) :
    tmpl_from_attr_substr dict (canonAttrRef scope lst da.name tag num)
        request_refs_t.current pair_lists_t.request
      = .ok { type := .attr, name := canonAttrRef scope lst da.name tag num,
              len := (canonAttrRef scope lst da.name tag num).length,
              attr := { request := scope, list := lst, da := some da,
                        tag := ((tag : Nat) : Int), num := ((num : Nat) : Int),
                        unknown_name := [] },
              dataType := none, dataValue := none }
          (canonAttrRef scope lst da.name tag num).length
    ∧ tmpl_prints
        { type := .attr, name := canonAttrRef scope lst da.name tag num,
          len := (canonAttrRef scope lst da.name tag num).length,
          attr := { request := scope, list := lst, da := some da,
                    tag := ((tag : Nat) : Int), num := ((num : Nat) : Int),
                    unknown_name := [] },
          dataType := none, dataValue := none }
      = canonAttrRef scope lst da.name tag num := by
  constructor
  · show tmpl_from_attr_substr dict
        ('&' :: (fr_int2str request_refs scope ++ '.' :: (fr_int2str pair_lists lst ++
          ':' :: (da.name ++ ':' :: (natToDigits tag ++ '[' :: (natToDigits num ++ [']']))))))
        request_refs_t.current pair_lists_t.request = _
    rcases hscope with h | h <;> subst h <;> cases lst <;>
      first
        | exact absurd rfl hlst
        | exact parse_canon_body dict da _ _ tag num _ _ (by decide) (by decide) (by decide)
            (by decide) (by decide) (by decide) hlk htag hall hne htag31 hnum1000
  · rcases hscope with h | h <;> subst h <;>
      exact prints_canon da _ lst tag num _ (by decide)

/-- Witness for C1 at a concrete canonical string, which is exactly
`&outer.reply:Tunnel-Type:5[3]`. -/
theorem tmpl_attr_roundtrip_witness :
    (tmpl_from_attr_substr sampleDict
        (canonAttrRef .outer .reply tunnelType.name 5 3)
        request_refs_t.current pair_lists_t.request
      = .ok { type := .attr, name := canonAttrRef .outer .reply tunnelType.name 5 3,
              len := (canonAttrRef .outer .reply tunnelType.name 5 3).length,
              attr := { request := .outer, list := .reply, da := some tunnelType,
                        tag := ((5 : Nat) : Int), num := ((3 : Nat) : Int),
                        unknown_name := [] },
              dataType := none, dataValue := none }
          (canonAttrRef .outer .reply tunnelType.name 5 3).length
    ∧ tmpl_prints
        { type := .attr, name := canonAttrRef .outer .reply tunnelType.name 5 3,
          len := (canonAttrRef .outer .reply tunnelType.name 5 3).length,
          attr := { request := .outer, list := .reply, da := some tunnelType,
                    tag := ((5 : Nat) : Int), num := ((3 : Nat) : Int),
                    unknown_name := [] },
          dataType := none, dataValue := none }
      = canonAttrRef .outer .reply tunnelType.name 5 3)
    ∧ canonAttrRef .outer .reply tunnelType.name 5 3
      = "&outer.reply:Tunnel-Type:5[3]".toList :=
  ⟨tmpl_attr_roundtrip sampleDict tunnelType .outer .reply 5 3 (by decide) (by decide)
    (by decide) (by decide) (by decide) (by decide) (Or.inl rfl) (by decide),
   by decide⟩
